import Mathlib

/-!
# go-twitch: transport core and channel methods

A shallow embedding of `twitch.go`, `channels.go` and the option types of
`common.go`, together with the parts of the Go standard library
(`net/url`, `net/http`, `strconv`) and of `go-querystring` that these
files call.

Go strings are byte sequences; they are modelled as lists of bytes, and a
string literal of the source is written `lit "..."` (its UTF-8 bytes).
-/

namespace Twitch

/-! ## Go strings -/

/-- One byte of a Go string. -/
abbrev Byte := Fin 256

/-- A Go `string`: an immutable sequence of bytes. -/
abbrev GoString := List Byte

/-- The byte of an ASCII character. -/
def ch (c : Char) : Byte := Fin.ofNat c.toNat

/-- The Go string literal with the given text (UTF-8 encoded, as Go source is). -/
def lit (s : String) : GoString :=
  s.data.flatMap fun c => (String.utf8EncodeChar c).map fun b => Fin.ofNat b.toNat

/-- Decimal digits of a natural number, most significant first
(`strconv.FormatUint(n, 10)`); `fuel` bounds the number of digits. -/
def natDigits : Nat → Nat → GoString → GoString
  | 0, _, acc => acc
  | fuel + 1, n, acc =>
    let acc := Fin.ofNat (48 + n % 10) :: acc
    if n / 10 = 0 then acc else natDigits fuel (n / 10) acc

/-- Go `strconv.Itoa`: the decimal rendering of an `int`. -/
def Itoa (n : Int) : GoString :=
  if n < 0 then ch '-' :: natDigits (n.natAbs + 1) n.natAbs []
  else natDigits (n.natAbs + 1) n.natAbs []

/-- Go `strings.Cut(s, sep)` for a one-byte separator: the text before the first
`sep`, the text after it, and whether `sep` was found. -/
def cutByte (sep : Byte) : GoString → GoString × GoString × Bool
  | [] => ([], [], false)
  | c :: s =>
    if c = sep then ([], s, true)
    else
      match cutByte sep s with
      | (before, after, found) => (c :: before, after, found)

/-- Go `strings.Count(s, sep)` for a one-byte separator. -/
def countByte (sep : Byte) (s : GoString) : Nat := s.count sep

/-- Go `strings.HasPrefix`. -/
def startsWith (s p : GoString) : Bool := p.isPrefixOf s

/-- Go `strings.HasSuffix`. -/
def endsWith (s p : GoString) : Bool := p.isSuffixOf s

/-- ASCII lower-case letter. -/
def isLower (c : Byte) : Bool := decide (97 ≤ c.val ∧ c.val ≤ 122)

/-- ASCII upper-case letter. -/
def isUpper (c : Byte) : Bool := decide (65 ≤ c.val ∧ c.val ≤ 90)

/-- ASCII decimal digit. -/
def isDigit (c : Byte) : Bool := decide (48 ≤ c.val ∧ c.val ≤ 57)

/-- Go `strings.ToLower` on the ASCII letters (the only ones a scheme can hold). -/
def toLowerASCII (s : GoString) : GoString :=
  s.map fun c => if isUpper c then Fin.ofNat (c.val + 32) else c

/-- Go `strings.Split(s, sep)` for a one-byte separator. -/
def splitByte (sep : Byte) : GoString → List GoString
  | [] => [[]]
  | c :: s =>
    if c = sep then [] :: splitByte sep s
    else
      match splitByte sep s with
      | [] => [[c]]
      | seg :: segs => (c :: seg) :: segs

/-- The text before the last `sep` of `s` (`s[:strings.LastIndexByte(s, sep)]`),
`none` when `sep` does not occur. -/
def beforeLast (sep : Byte) : GoString → Option GoString
  | [] => none
  | c :: s =>
    match beforeLast sep s with
    | some t => some (c :: t)
    | none => if c = sep then some [] else none

/-- The text from the last `sep` of `s` on (`s[strings.LastIndex(s, sep):]`),
`none` when `sep` does not occur. -/
def fromLast (sep : Byte) : GoString → Option GoString
  | [] => none
  | c :: s =>
    match fromLast sep s with
    | some t => some t
    | none => if c = sep then some (c :: s) else none

/-! ## Errors -/

/-- The reasons for which `net/url` rejects an input. -/
inductive UrlFault where
  /-- "net/url: invalid control character in URL". -/
  | controlCharacter
  /-- "missing protocol scheme". -/
  | missingScheme
  /-- "first path segment in URL cannot contain colon". -/
  | colonInFirstSegment
  /-- "invalid port ... after host". -/
  | invalidPort (colonPort : GoString)
  /-- `InvalidHostError`. -/
  | invalidHost (c : Byte)
  /-- `EscapeError`: a malformed percent-escape. -/
  | badEscape (s : GoString)
  /-- "invalid semicolon separator in query". -/
  | invalidSemicolon
  /-- The input leaves the part of `net/url` that is modelled here: userinfo,
  bracketed IPv6 hosts and percent-escapes in hosts. -/
  | outsideModel
  deriving DecidableEq, Repr

/-- The reasons for which `encoding/json` fails to decode a body. -/
inductive JsonFault where
  /-- `*json.SyntaxError`: "invalid character `c` `context`". -/
  | invalidCharacter (c : Byte) (context : GoString)
  /-- `io.EOF`: the body holds no value at all. -/
  | eof
  /-- `io.ErrUnexpectedEOF`: the body ends inside a value. -/
  | unexpectedEOF
  /-- `*json.UnmarshalTypeError`: a JSON value of kind `value` cannot be stored in the
  field `field` (empty for the destination itself). -/
  | typeMismatch (value field : GoString)
  /-- The input leaves the part of `encoding/json` that is modelled here: strings with
  `\u` escapes or bytes outside ASCII. -/
  | outsideModel
  deriving DecidableEq, Repr

/-- Go `error` values that the transport core can return. -/
inductive GoError where
  /-- The error made by `errors.New(msg)`: its `Error()` is `msg`. -/
  | errorsNew (msg : GoString)
  /-- The `*url.Error` of `url.Parse` on `input`. -/
  | urlError (input : GoString) (fault : UrlFault)
  /-- An error returned by the HTTP client's `Do`. -/
  | transport (msg : GoString)
  /-- An error returned while decoding or reading a response body. -/
  | body (msg : GoString)
  /-- An error of `encoding/json`. -/
  | json (fault : JsonFault)
  deriving DecidableEq, Repr

/-- Go `errors.New`. -/
def errors.New (msg : GoString) : GoError := GoError.errorsNew msg

/-! ## net/url (Go standard library) -/

namespace url

/-- The escaping modes of `net/url` that the client reaches. -/
inductive encoding where
  | encodePath
  | encodeHost
  | encodeQueryComponent
  | encodeFragment
  deriving DecidableEq, Repr

/-- Go `url.shouldEscape`: whether byte `c` must be percent-escaped in `mode`. -/
def shouldEscape (c : Byte) (mode : encoding) : Bool :=
  if isLower c || isUpper c || isDigit c then false
  else if mode = encoding.encodeHost &&
      decide (c ∈ [ch '!', ch '$', ch '&', ch '\'', ch '(', ch ')', ch '*', ch '+', ch ',',
        ch ';', ch '=', ch ':', ch '[', ch ']', ch '<', ch '>', ch '"']) then false
  else if decide (c ∈ [ch '-', ch '_', ch '.', ch '~']) then false
  else if decide (c ∈ [ch '$', ch '&', ch '+', ch ',', ch '/', ch ':', ch ';', ch '=',
      ch '?', ch '@']) then
    match mode with
    | encoding.encodePath => c = ch '?'
    | encoding.encodeQueryComponent => true
    | encoding.encodeFragment => false
    | encoding.encodeHost => true
  else if mode = encoding.encodeFragment &&
      decide (c ∈ [ch '!', ch '(', ch ')', ch '*']) then false
  else true

/-- The table `upperhex = "0123456789ABCDEF"`, indexed by a nibble. -/
def upperhex (n : Nat) : Byte :=
  if n < 10 then Fin.ofNat (48 + n) else Fin.ofNat (55 + n)

/-- What Go `url.escape` writes for one byte: space becomes `+` in a query component, a
byte that `shouldEscape` becomes `%XX`, every other byte is kept. -/
def escapeByte (c : Byte) (mode : encoding) : GoString :=
  if c = ch ' ' ∧ mode = encoding.encodeQueryComponent then [ch '+']
  else if shouldEscape c mode then [ch '%', upperhex (c.val / 16), upperhex (c.val % 16)]
  else [c]

/-- Go `url.escape`. -/
def escape (s : GoString) (mode : encoding) : GoString :=
  s.flatMap fun c => escapeByte c mode

/-- Go `url.QueryEscape`. -/
def QueryEscape (s : GoString) : GoString := escape s encoding.encodeQueryComponent

/-- Go `url.ishex`. -/
def ishex (c : Byte) : Bool :=
  isDigit c || decide (97 ≤ c.val ∧ c.val ≤ 102) || decide (65 ≤ c.val ∧ c.val ≤ 70)

/-- Go `url.unhex`. -/
def unhex (c : Byte) : Nat :=
  if isDigit c then c.val - 48
  else if 97 ≤ c.val ∧ c.val ≤ 102 then c.val - 97 + 10
  else if 65 ≤ c.val ∧ c.val ≤ 70 then c.val - 65 + 10
  else 0

/-- Go `url.unescape`: the first malformed escape (or, in a host, the first byte
that a host cannot hold) is an error; otherwise `%XX` is decoded and, in a query
component, `+` becomes a space. -/
def unescape : GoString → encoding → Except UrlFault GoString
  | [], _ => Except.ok []
  | c :: s, mode =>
    if c = ch '%' then
      match s with
      | h1 :: h2 :: rest =>
        if ishex h1 && ishex h2 then
          if mode = encoding.encodeHost then Except.error UrlFault.outsideModel
          else
            match unescape rest mode with
            | Except.ok t => Except.ok (Fin.ofNat (unhex h1 * 16 + unhex h2) :: t)
            | Except.error e => Except.error e
        else Except.error (UrlFault.badEscape (c :: (s.take 2)))
      | _ => Except.error (UrlFault.badEscape (c :: s))
    else if c = ch '+' then
      match unescape s mode with
      | Except.ok t =>
        Except.ok ((if mode = encoding.encodeQueryComponent then ch ' ' else c) :: t)
      | Except.error e => Except.error e
    else if mode = encoding.encodeHost ∧ c.val < 128 ∧ shouldEscape c encoding.encodeHost then
      Except.error (UrlFault.invalidHost c)
    else
      match unescape s mode with
      | Except.ok t => Except.ok (c :: t)
      | Except.error e => Except.error e

/-- Go `url.validEncoded`. -/
def validEncoded (s : GoString) (mode : encoding) : Bool :=
  s.all fun c =>
    if decide (c ∈ [ch '!', ch '$', ch '&', ch '\'', ch '(', ch ')', ch '*', ch '+', ch ',',
        ch ';', ch '=', ch ':', ch '@', ch '[', ch ']', ch '%']) then true
    else !shouldEscape c mode

/-- Go `url.URL`, without the `User` field: URLs with userinfo are outside the model. -/
structure URL where
  Scheme : GoString := []
  Opaque : GoString := []
  Host : GoString := []
  Path : GoString := []
  RawPath : GoString := []
  OmitHost : Bool := false
  ForceQuery : Bool := false
  RawQuery : GoString := []
  Fragment : GoString := []
  RawFragment : GoString := []
  deriving DecidableEq, Repr

/-- Go `(*URL).setPath`: `Path` is the unescaped text, `RawPath` the given text
when it is not the default escaping of `Path`. -/
def URL.setPath (u : URL) (p : GoString) : Except UrlFault URL :=
  match unescape p encoding.encodePath with
  | Except.error e => Except.error e
  | Except.ok path =>
    Except.ok { u with Path := path,
                       RawPath := if p = escape path encoding.encodePath then [] else p }

/-- Go `(*URL).setFragment`. -/
def URL.setFragment (u : URL) (f : GoString) : Except UrlFault URL :=
  match unescape f encoding.encodeFragment with
  | Except.error e => Except.error e
  | Except.ok frag =>
    Except.ok { u with Fragment := frag,
                       RawFragment := if f = escape frag encoding.encodeFragment then [] else f }

/-- Whether `unescape raw mode` succeeds with result `plain`. -/
def unescapesTo (raw : GoString) (mode : encoding) (plain : GoString) : Bool :=
  match unescape raw mode with
  | Except.ok p => decide (p = plain)
  | Except.error _ => false

/-- Go `(*URL).EscapedPath`. -/
def URL.EscapedPath (u : URL) : GoString :=
  if u.RawPath ≠ [] ∧ validEncoded u.RawPath encoding.encodePath ∧
      unescapesTo u.RawPath encoding.encodePath u.Path then u.RawPath
  else if u.Path = lit "*" then lit "*"
  else escape u.Path encoding.encodePath

/-- Go `(*URL).EscapedFragment`. -/
def URL.EscapedFragment (u : URL) : GoString :=
  if u.RawFragment ≠ [] ∧ validEncoded u.RawFragment encoding.encodeFragment ∧
      unescapesTo u.RawFragment encoding.encodeFragment u.Fragment then u.RawFragment
  else escape u.Fragment encoding.encodeFragment

/-- Outcome of scanning for a scheme in `getScheme`. -/
inductive SchemeScan where
  | noScheme
  | missing
  | found (scheme rest : GoString)
  deriving DecidableEq, Repr

/-- The loop of Go `url.getScheme`; `atStart` says that the byte is at index 0. -/
def getSchemeLoop (atStart : Bool) : GoString → SchemeScan
  | [] => SchemeScan.noScheme
  | c :: s =>
    if isLower c || isUpper c then
      match getSchemeLoop false s with
      | SchemeScan.found scheme rest => SchemeScan.found (c :: scheme) rest
      | r => r
    else if isDigit c || decide (c = ch '+' ∨ c = ch '-' ∨ c = ch '.') then
      if atStart then SchemeScan.noScheme
      else
        match getSchemeLoop false s with
        | SchemeScan.found scheme rest => SchemeScan.found (c :: scheme) rest
        | r => r
    else if c = ch ':' then
      if atStart then SchemeScan.missing else SchemeScan.found [] s
    else SchemeScan.noScheme

/-- Go `url.getScheme`: the scheme and the rest of the input. -/
def getScheme (rawURL : GoString) : Except UrlFault (GoString × GoString) :=
  match getSchemeLoop true rawURL with
  | SchemeScan.noScheme => Except.ok ([], rawURL)
  | SchemeScan.missing => Except.error UrlFault.missingScheme
  | SchemeScan.found scheme rest => Except.ok (scheme, rest)

/-- Go `url.stringContainsCTLByte`. -/
def stringContainsCTLByte (s : GoString) : Bool :=
  s.any fun b => decide (b.val < 32 ∨ b.val = 127)

/-- Go `url.validOptionalPort`. -/
def validOptionalPort (port : GoString) : Bool :=
  match port with
  | [] => true
  | c :: digits => decide (c = ch ':') && digits.all isDigit

/-- Go `url.parseHost` for hosts that are not bracketed IPv6 literals. -/
def parseHost (host : GoString) : Except UrlFault GoString :=
  if startsWith host (lit "[") then Except.error UrlFault.outsideModel
  else
    match fromLast (ch ':') host with
    | some colonPort =>
      if validOptionalPort colonPort then unescape host encoding.encodeHost
      else Except.error (UrlFault.invalidPort colonPort)
    | none => unescape host encoding.encodeHost

/-- Go `url.parseAuthority` for authorities without userinfo. -/
def parseAuthority (authority : GoString) : Except UrlFault GoString :=
  if ch '@' ∈ authority then Except.error UrlFault.outsideModel
  else parseHost authority

/-- Go `url.parse(rawURL, viaRequest = false)`. -/
def parse (rawURL : GoString) : Except UrlFault URL :=
  if stringContainsCTLByte rawURL then Except.error UrlFault.controlCharacter
  else if rawURL = lit "*" then Except.ok { Path := lit "*" }
  else
    match getScheme rawURL with
    | Except.error e => Except.error e
    | Except.ok (scheme, rest0) =>
      let url : URL := { Scheme := toLowerASCII scheme }
      let (url, rest) : URL × GoString :=
        if endsWith rest0 (lit "?") ∧ countByte (ch '?') rest0 = 1 then
          ({ url with ForceQuery := true }, rest0.dropLast)
        else
          match cutByte (ch '?') rest0 with
          | (before, after, _) => ({ url with RawQuery := after }, before)
      if ¬ startsWith rest (lit "/") ∧ url.Scheme ≠ [] then
        Except.ok { url with Opaque := rest }
      else if ¬ startsWith rest (lit "/") ∧ ch ':' ∈ (cutByte (ch '/') rest).1 then
        Except.error UrlFault.colonInFirstSegment
      else if (url.Scheme ≠ [] ∨ ¬ startsWith rest (lit "///")) ∧ startsWith rest (lit "//") then
        match cutByte (ch '/') (rest.drop 2) with
        | (authority, after, found) =>
          match parseAuthority authority with
          | Except.error e => Except.error e
          | Except.ok host =>
            URL.setPath { url with Host := host } (if found then ch '/' :: after else [])
      else if url.Scheme ≠ [] ∧ startsWith rest (lit "/") then
        URL.setPath { url with OmitHost := true } rest
      else URL.setPath url rest

/-- Go `url.Parse`: the fragment is cut off at the first `#` and parsed apart. -/
def Parse (rawURL : GoString) : Except GoError URL :=
  match cutByte (ch '#') rawURL with
  | (u, frag, _) =>
    match parse u with
    | Except.error e => Except.error (GoError.urlError u e)
    | Except.ok url =>
      if frag = [] then Except.ok url
      else
        match URL.setFragment url frag with
        | Except.error e => Except.error (GoError.urlError rawURL e)
        | Except.ok url => Except.ok url

/-- Go `(*URL).String`. -/
def URL.String (u : URL) : GoString :=
  let buf : GoString := if u.Scheme ≠ [] then u.Scheme ++ lit ":" else []
  let buf : GoString :=
    if u.Opaque ≠ [] then buf ++ u.Opaque
    else
      let buf : GoString :=
        if u.Scheme ≠ [] ∨ u.Host ≠ [] then
          if u.OmitHost ∧ u.Host = [] then buf
          else
            let buf : GoString := if u.Host ≠ [] ∨ u.Path ≠ [] then buf ++ lit "//" else buf
            if u.Host ≠ [] then buf ++ escape u.Host encoding.encodeHost else buf
        else buf
      let path := u.EscapedPath
      let buf : GoString :=
        if path ≠ [] ∧ path.head? ≠ some (ch '/') ∧ u.Host ≠ [] then buf ++ lit "/" else buf
      let buf : GoString :=
        if buf = [] ∧ ch ':' ∈ (cutByte (ch '/') path).1 then buf ++ lit "./" else buf
      buf ++ path
  let buf : GoString :=
    if u.ForceQuery ∨ u.RawQuery ≠ [] then buf ++ lit "?" ++ u.RawQuery else buf
  if u.Fragment ≠ [] then buf ++ lit "#" ++ u.EscapedFragment else buf

/-- State of the loop of `resolvePath`: the text written to `dst` and the flag `first`. -/
structure ResolveState where
  dst : GoString
  first : Bool
  deriving DecidableEq, Repr

/-- One turn of the loop of Go `url.resolvePath` on the path element `elem`. -/
def resolveStep (st : ResolveState) (elem : GoString) : ResolveState :=
  if elem = lit "." then { st with first := false }
  else if elem = lit ".." then
    match beforeLast (ch '/') (st.dst.drop 1) with
    | none => { dst := lit "/", first := true }
    | some kept => { dst := lit "/" ++ kept, first := st.first }
  else
    { dst := (if st.first then st.dst else st.dst ++ lit "/") ++ elem, first := false }

/-- Go `url.resolvePath`: the path of `ref` resolved against `base`, dot segments removed. -/
def resolvePath (base ref : GoString) : GoString :=
  let full : GoString :=
    if ref = [] then base
    else if ref.head? ≠ some (ch '/') then
      (match beforeLast (ch '/') base with
       | some dir => dir ++ lit "/"
       | none => []) ++ ref
    else ref
  if full = [] then []
  else
    let elems := splitByte (ch '/') full
    let st := elems.foldl resolveStep { dst := lit "/", first := true }
    let last := elems.getLast?.getD []
    let r : GoString := if last = lit "." ∨ last = lit ".." then st.dst ++ lit "/" else st.dst
    if 1 < r.length ∧ (r.drop 1).head? = some (ch '/') then r.drop 1 else r

/-- Go `(*URL).ResolveReference` (the error of `setPath` is ignored, as in Go). -/
def URL.ResolveReference (u ref : URL) : URL :=
  let url : URL := if ref.Scheme = [] then { ref with Scheme := u.Scheme } else ref
  if ref.Scheme ≠ [] ∨ ref.Host ≠ [] then
    match URL.setPath url (resolvePath ref.EscapedPath []) with
    | Except.ok url => url
    | Except.error _ => url
  else if ref.Opaque ≠ [] then { url with Host := [], Path := [] }
  else
    let url : URL :=
      if ref.Path = [] ∧ ¬ ref.ForceQuery ∧ ref.RawQuery = [] then
        if ref.Fragment = [] then
          { url with RawQuery := u.RawQuery, Fragment := u.Fragment, RawFragment := u.RawFragment }
        else { url with RawQuery := u.RawQuery }
      else url
    if ref.Path = [] ∧ u.Opaque ≠ [] then
      { url with Opaque := u.Opaque, Host := [], Path := [] }
    else
      let url : URL := { url with Host := u.Host }
      match URL.setPath url (resolvePath u.EscapedPath ref.EscapedPath) with
      | Except.ok url => url
      | Except.error _ => url

end url

/-! ## net/http (Go standard library) -/

namespace http

/-- Go `textproto.validHeaderFieldByte`: the bytes of an RFC 7230 token. -/
def validHeaderFieldByte (c : Byte) : Bool :=
  isLower c || isUpper c || isDigit c ||
    decide (c ∈ [ch '!', ch '#', ch '$', ch '%', ch '&', ch '\'', ch '*', ch '+', ch '-',
      ch '.', ch '^', ch '_', (96 : Byte), ch '|', ch '~'])

/-- The rewriting loop of Go `textproto.canonicalMIMEHeaderKey`: upper case at the
start and after each dash, lower case elsewhere. -/
def canonicalLoop (upper : Bool) : GoString → GoString
  | [] => []
  | c :: s =>
    let c1 : Byte :=
      if upper ∧ isLower c then Fin.ofNat (c.val - 32)
      else if ¬ upper ∧ isUpper c then Fin.ofNat (c.val + 32)
      else c
    c1 :: canonicalLoop (decide (c1 = ch '-')) s

/-- Go `textproto.CanonicalMIMEHeaderKey`: a key holding a byte that is not a token
byte is returned unchanged. -/
def CanonicalMIMEHeaderKey (s : GoString) : GoString :=
  if s.all validHeaderFieldByte then canonicalLoop true s else s

/-- Go `http.Header`, a `map[string][]string`: each key occurs once. -/
abbrev Header := List (GoString × List GoString)

/-- The map update `h[key] = append(h[key], value)`. -/
def Header.append : Header → GoString → GoString → Header
  | [], key, value => [(key, [value])]
  | (k, vs) :: h, key, value =>
    if k = key then (k, vs ++ [value]) :: h else (k, vs) :: Header.append h key value

/-- Go `Header.Add`. -/
def Header.Add (h : Header) (key value : GoString) : Header :=
  Header.append h (CanonicalMIMEHeaderKey key) value

/-- Go `Header.Values`: the values stored under the canonical form of `key`. -/
def Header.Values (h : Header) (key : GoString) : List GoString :=
  match h.lookup (CanonicalMIMEHeaderKey key) with
  | some vs => vs
  | none => []

/-- Go `Header.Get`: the first value under `key`, `""` when there is none. -/
def Header.Get (h : Header) (key : GoString) : GoString :=
  (Header.Values h key).headD []

/-- Go `http.Request`, for a request without body. -/
structure Request where
  Method : GoString
  URL : url.URL
  Header : Header
  Host : GoString
  deriving DecidableEq, Repr

/-- The body of a response: the bytes its stream yields, and the error that ends
the stream when reading fails. -/
structure Body where
  data : GoString
  readErr : Option GoError := none
  deriving DecidableEq, Repr

/-- Go `http.Response`. -/
structure Response where
  StatusCode : Int
  Body : Body
  deriving DecidableEq, Repr

/-- Go `http.StatusOK`. -/
def StatusOK : Int := 200

/-- Go `http.StatusNotModified`. -/
def StatusNotModified : Int := 304

/-- Go `http.validMethod`: a non-empty token. -/
def validMethod (method : GoString) : Bool :=
  method ≠ [] && method.all validHeaderFieldByte

/-- Go `http.removeEmptyPort`. -/
def removeEmptyPort (host : GoString) : GoString :=
  let lastColon := (beforeLast (ch ':') host).map List.length
  let lastBracket := (beforeLast (ch ']') host).map List.length
  let hasPort : Bool :=
    match lastColon, lastBracket with
    | some i, some j => decide (j < i)
    | some _, none => true
    | none, _ => false
  if hasPort ∧ endsWith host (lit ":") then host.dropLast else host

/-- Go `http.NewRequest(method, url, nil)`. -/
def NewRequest (method urlStr : GoString) : Except GoError Request :=
  let method := if method = [] then lit "GET" else method
  if ¬ validMethod method then
    Except.error (GoError.errorsNew (lit "net/http: invalid method " ++ method))
  else
    match url.Parse urlStr with
    | Except.error e => Except.error e
    | Except.ok u =>
      let u : url.URL := { u with Host := removeEmptyPort u.Host }
      Except.ok { Method := method, URL := u, Header := [], Host := u.Host }

end http

/-- Go `ioutil.ReadAll`: the bytes read and the error that stopped the reading. -/
def ioutil.ReadAll (b : http.Body) : GoString × Option GoError := (b.data, b.readErr)

/-! ## twitch.go -/

/-- The constant `rootURL`. -/
def rootURL : GoString := lit "https://api.twitch.tv/kraken/"

/-- The struct `AppInfo`. -/
structure AppInfo where
  ClientID : GoString
  ClientSecret : GoString
  State : GoString
  RedirectURI : GoString
  Scope : GoString
  deriving DecidableEq, Repr

/-- The struct `Client`: the fields that the requests read. The method groups
(`Channels`, `Chat`, ...) only point back to the client, and the `*http.Client`
is the `Do` argument of the request methods. -/
structure Client where
  BaseURL : url.URL
  AppInfo : AppInfo
  AccessToken : GoString
  deriving DecidableEq, Repr

/-- The process environment, read by `os.Getenv`: an unset variable reads as `""`. -/
abbrev Environ := GoString → GoString

/-- The function `NewClient`. The error of `url.Parse(rootURL)` is dropped by the
source; on an error the base URL would be nil, here the empty URL. -/
def NewClient (getenv : Environ) : Client :=
  let baseURL : url.URL :=
    match url.Parse rootURL with
    | Except.ok u => u
    | Except.error _ => {}
  let clientId := getenv (lit "GO_TWITCH_CLIENTID")
  let clientSecret := getenv (lit "GO_TWITCH_CLIENTSECRET")
  let state := getenv (lit "GO_TWITCH_CLIENTID")
  let redirectURL := getenv (lit "GO_TWITCH_REDIRECTURL")
  let scope := getenv (lit "GO_TWITCH_SCOPE")
  { BaseURL := baseURL,
    AppInfo := { ClientID := clientId, ClientSecret := clientSecret, State := state,
                 RedirectURI := redirectURL, Scope := scope },
    AccessToken := [] }

/-- The HTTP client of a `Client`: what `c.client.Do(req)` returns for each request. -/
abbrev Doer := http.Request → Except GoError http.Response

/-- The decoder `json.NewDecoder(body).Decode(r)` for destinations of type `α`:
the destination after the call and the error returned. -/
abbrev Decoder (α : Type) := http.Body → α → α × Option GoError

/-- What a call of `Client.Get` or `Client.GetAPI` leaves behind. -/
structure GetResult (α : Type) where
  /-- The returned `*http.Response` (`none` for nil). -/
  resp : Option http.Response
  /-- The returned `error` (`none` for nil). -/
  err : Option GoError
  /-- The value that `r` points to after the call (`none` when `r` is nil). -/
  dest : Option α
  /-- The request handed to the HTTP client, when one was built. -/
  sent : Option http.Request
  /-- The response the HTTP client returned, when it returned one. -/
  received : Option http.Response
  /-- Whether `resp.Body.Close()` has run when the call returns. -/
  bodyClosed : Bool

/-- The header lines shared by `Client.Get` and `Client.GetAPI`
(twitch.go lines 94-102 and 141-149). -/
def Client.addHeaders (c : Client) (req : http.Request) : http.Request :=
  let req : http.Request :=
    { req with Header := req.Header.Add (lit "Accept") (lit "application/vnd.twitchtv.v2+json") }
  let req : http.Request :=
    if c.AppInfo.ClientID.length ≠ 0 then
      { req with Header := req.Header.Add (lit "Client-ID") c.AppInfo.ClientID }
    else req
  if c.AccessToken.length ≠ 0 then
    { req with Header := req.Header.Add (lit "Authorization") (lit "OAuth " ++ c.AccessToken) }
  else req

/-- The part of `Client.Get` and `Client.GetAPI` from `c.client.Do(req)` on
(twitch.go lines 104-120 and 151-167). -/
def Client.finish {α : Type} (client : Doer) (decode : Decoder α) (req : http.Request)
    (r : Option α) : GetResult α :=
  match client req with
  | Except.error err =>
    { resp := none, err := some err, dest := r, sent := some req, received := none,
      bodyClosed := false }
  | Except.ok resp =>
    if resp.StatusCode ≠ http.StatusOK ∧ resp.StatusCode ≠ http.StatusNotModified then
      { resp := none,
        err := some (errors.New (lit "api error, response code: " ++ Itoa resp.StatusCode)),
        dest := r, sent := some req, received := some resp, bodyClosed := false }
    else
      -- `defer resp.Body.Close()` is registered here: it runs at the return below
      match r with
      | some dest =>
        match decode resp.Body dest with
        | (dest, err) =>
          { resp := some resp, err := err, dest := some dest, sent := some req,
            received := some resp, bodyClosed := true }
      | none =>
        { resp := some resp, err := none, dest := none, sent := some req,
          received := some resp, bodyClosed := true }

/-- The method `Client.Get`: the path is resolved against `c.BaseURL`. -/
def Client.Get {α : Type} (client : Doer) (decode : Decoder α) (c : Client)
    (path : GoString) (r : Option α) : GetResult α :=
  match url.Parse path with
  | Except.error err =>
    { resp := none, err := some err, dest := r, sent := none, received := none,
      bodyClosed := false }
  | Except.ok rel =>
    let u := c.BaseURL.ResolveReference rel
    match http.NewRequest (lit "GET") u.String with
    | Except.error err =>
      { resp := none, err := some err, dest := r, sent := none, received := none,
        bodyClosed := false }
    | Except.ok req => Client.finish client decode (c.addHeaders req) r

/-- The method `Client.GetAPI`: the path is resolved against `https://api.twitch.tv/api/`. -/
def Client.GetAPI {α : Type} (client : Doer) (decode : Decoder α) (c : Client)
    (path : GoString) (r : Option α) : GetResult α :=
  match url.Parse path with
  | Except.error err =>
    { resp := none, err := some err, dest := r, sent := none, received := none,
      bodyClosed := false }
  | Except.ok rel =>
    let baseURL : url.URL :=
      match url.Parse (lit "https://api.twitch.tv/api/") with
      | Except.ok u => u
      | Except.error _ => {}
    let u := baseURL.ResolveReference rel
    match http.NewRequest (lit "GET") u.String with
    | Except.error err =>
      { resp := none, err := some err, dest := r, sent := none, received := none,
        bodyClosed := false }
    | Except.ok req => Client.finish client decode (c.addHeaders req) r

/-- What a call of `Client.GetUsher` leaves behind. -/
structure UsherResult where
  /-- The returned string. -/
  body : GoString
  /-- The returned `error` (`none` for nil). -/
  err : Option GoError
  /-- The request handed to the HTTP client, when one was built. -/
  sent : Option http.Request
  /-- The response the HTTP client returned, when it returned one. -/
  received : Option http.Response
  /-- Whether `resp.Body.Close()` has run when the call returns. -/
  bodyClosed : Bool
  deriving DecidableEq, Repr

/-- The method `Client.GetUsher`: the path is resolved against
`https://usher.ttvnw.net/api/`, no header is added, the body is returned as text. -/
def Client.GetUsher (client : Doer) (_c : Client) (path : GoString) : UsherResult :=
  match url.Parse path with
  | Except.error err =>
    { body := [], err := some err, sent := none, received := none, bodyClosed := false }
  | Except.ok rel =>
    let baseURL : url.URL :=
      match url.Parse (lit "https://usher.ttvnw.net/api/") with
      | Except.ok u => u
      | Except.error _ => {}
    let u := baseURL.ResolveReference rel
    match http.NewRequest (lit "GET") u.String with
    | Except.error err =>
      { body := [], err := some err, sent := none, received := none, bodyClosed := false }
    | Except.ok req =>
      match client req with
      | Except.error err =>
        { body := [], err := some err, sent := some req, received := none, bodyClosed := false }
      | Except.ok resp =>
        if resp.StatusCode ≠ http.StatusOK ∧ resp.StatusCode ≠ http.StatusNotModified then
          { body := [],
            err := some (errors.New (lit "api error, response code: " ++ Itoa resp.StatusCode)),
            sent := some req, received := some resp, bodyClosed := false }
        else
          -- `defer resp.Body.Close()` is registered here: it runs at the return below
          match ioutil.ReadAll resp.Body with
          | (body, err) =>
            { body := body, err := err, sent := some req, received := some resp,
              bodyClosed := true }

/-! ## net/url: query values -/

namespace url

/-- Go `url.Values`, a `map[string][]string`: each key occurs once. -/
abbrev Values := List (GoString × List GoString)

/-- Go `Values.Add`: `v[key] = append(v[key], value)`. -/
def Values.Add : Values → GoString → GoString → Values
  | [], key, value => [(key, [value])]
  | (k, vs) :: v, key, value =>
    if k = key then (k, vs ++ [value]) :: v else (k, vs) :: Values.Add v key value

/-- Go `Values.Get`: the first value under `key`, `""` when there is none. -/
def Values.Get (v : Values) (key : GoString) : GoString :=
  match v.lookup key with
  | some (value :: _) => value
  | _ => []

/-- Go `slices.Sort` on strings: ascending in the byte-wise order of Go strings. -/
def sortStrings (keys : List GoString) : List GoString :=
  keys.insertionSort (fun a b => a ≤ b)

/-- The body of the inner loop of `Values.Encode`: one `key=value` is written to
`buf`, after a `&` when `buf` is not empty. -/
def encodePair (keyEscaped : GoString) (buf value : GoString) : GoString :=
  (if 0 < buf.length then buf ++ lit "&" else buf) ++ keyEscaped ++ lit "=" ++ QueryEscape value

/-- Go `Values.Encode`: the keys in sorted order, each value of a key as
`QueryEscape(key)=QueryEscape(value)`, joined by `&`. -/
def Values.Encode (v : Values) : GoString :=
  (sortStrings (v.map Prod.fst)).foldl
    (fun buf k => ((v.lookup k).getD []).foldl (encodePair (QueryEscape k)) buf) []

/-- Go `url.QueryUnescape`. -/
def QueryUnescape (s : GoString) : Except UrlFault GoString :=
  unescape s encoding.encodeQueryComponent

/-- State of the loop of `url.parseQuery`: the parameters read so far, in the order of
the query, and the error to return. -/
structure ParseState where
  params : List (GoString × GoString)
  err : Option UrlFault
  deriving DecidableEq, Repr

/-- One turn of the loop of Go `url.parseQuery`, on the text `key` between two `&`. -/
def parseQueryStep (st : ParseState) (key : GoString) : ParseState :=
  if ch ';' ∈ key then { st with err := some UrlFault.invalidSemicolon }
  else if key = [] then st
  else
    match cutByte (ch '=') key with
    | (key, value, _) =>
      match QueryUnescape key with
      | Except.error e => { st with err := st.err.orElse fun _ => some e }
      | Except.ok key =>
        match QueryUnescape value with
        | Except.error e => { st with err := st.err.orElse fun _ => some e }
        | Except.ok value => { st with params := st.params ++ [(key, value)] }

/-- Go `url.ParseQuery`, with the parameters as the list of `(key, value)` in the order
in which the query holds them. The loop cuts the query at each `&`; a text between two
`&` that is empty is skipped, so the loop runs over `strings.Split(query, "&")`. -/
def ParseQuery (query : GoString) : ParseState :=
  if query = [] then { params := [], err := none }
  else (splitByte (ch '&') query).foldl parseQueryStep { params := [], err := none }

end url

/-! ## go-querystring -/

namespace query

/-- The value of a struct field, by its Go type, for the types of the option structs. -/
inductive FieldValue where
  | string (s : GoString)
  | int (n : Int)
  | bool (b : Bool)
  /-- A `*bool`: `none` is the nil pointer. -/
  | boolPtr (p : Option Bool)
  deriving DecidableEq, Repr

/-- An exported struct field with its `url` tag: the name in the tag and whether the
tag has the option `omitempty`. -/
structure Field where
  name : GoString
  omitempty : Bool
  value : FieldValue
  deriving DecidableEq, Repr

/-- The function `isEmptyValue` of go-querystring. -/
def isEmptyValue : FieldValue → Bool
  | FieldValue.string s => s.length == 0
  | FieldValue.int n => n == 0
  | FieldValue.bool b => !b
  | FieldValue.boolPtr p => p.isNone

/-- Go `fmt.Sprint` of a `bool`. -/
def sprintBool (b : Bool) : GoString := if b then lit "true" else lit "false"

/-- The function `valueString` of go-querystring: pointers are followed (a nil pointer
gives `""`), the value is printed by `fmt.Sprint`. -/
def valueString : FieldValue → GoString
  | FieldValue.string s => s
  | FieldValue.int n => Itoa n
  | FieldValue.bool b => sprintBool b
  | FieldValue.boolPtr none => []
  | FieldValue.boolPtr (some b) => sprintBool b

/-- The loop of `reflectValue` of go-querystring over the fields of a struct: a field
tagged `omitempty` whose value is empty is skipped, every other field is added under
its tag name. -/
def reflectValue (values : url.Values) (fields : List Field) : url.Values :=
  fields.foldl
    (fun values f =>
      if f.omitempty && isEmptyValue f.value then values
      else values.Add f.name (valueString f.value))
    values

/-- The function `query.Values` of go-querystring on a non-nil pointer to a struct with
the given fields; the error is always nil for such an argument. -/
def Values (fields : List Field) : Except GoError url.Values :=
  Except.ok (reflectValue [] fields)

end query

/-! ## common.go: the option structs -/

/-- The struct `ListOptions`. -/
structure ListOptions where
  Game : GoString := []
  Channel : GoString := []
  Direction : GoString := []
  Period : GoString := []
  Limit : Int := 0
  Offset : Int := 0
  Embeddable : Option Bool := none
  Hls : Option Bool := none
  Live : Option Bool := none
  deriving DecidableEq, Repr

/-- The fields of `ListOptions` with their `url` tags, in the order of the declaration. -/
def ListOptions.fields (o : ListOptions) : List query.Field :=
  [ { name := lit "game", omitempty := true, value := query.FieldValue.string o.Game },
    { name := lit "channel", omitempty := true, value := query.FieldValue.string o.Channel },
    { name := lit "direction", omitempty := true, value := query.FieldValue.string o.Direction },
    { name := lit "period", omitempty := true, value := query.FieldValue.string o.Period },
    { name := lit "limit", omitempty := true, value := query.FieldValue.int o.Limit },
    { name := lit "offset", omitempty := true, value := query.FieldValue.int o.Offset },
    { name := lit "embeddable", omitempty := true, value := query.FieldValue.boolPtr o.Embeddable },
    { name := lit "hls", omitempty := true, value := query.FieldValue.boolPtr o.Hls },
    { name := lit "live", omitempty := true, value := query.FieldValue.boolPtr o.Live } ]

/-- The struct `M3U8Options`; its field `Type` is written `Type_` here. -/
structure M3U8Options where
  Token : GoString := []
  Sig : GoString := []
  Player : GoString := []
  AllowAudioOnly : Bool := false
  AllowSource : Bool := false
  Type_ : GoString := []
  Random : Int := 0
  deriving DecidableEq, Repr

/-- The fields of `M3U8Options` with their `url` tags, in the order of the declaration. -/
def M3U8Options.fields (o : M3U8Options) : List query.Field :=
  [ { name := lit "token", omitempty := true, value := query.FieldValue.string o.Token },
    { name := lit "sig", omitempty := true, value := query.FieldValue.string o.Sig },
    { name := lit "player", omitempty := true, value := query.FieldValue.string o.Player },
    { name := lit "$allow_audio_only", omitempty := false,
      value := query.FieldValue.bool o.AllowAudioOnly },
    { name := lit "allow_source", omitempty := false,
      value := query.FieldValue.bool o.AllowSource },
    { name := lit "type", omitempty := true, value := query.FieldValue.string o.Type_ },
    { name := lit "p", omitempty := true, value := query.FieldValue.int o.Random } ]

/-! ## common.go and channels.go: the objects that the channel methods decode into -/

/-- Go `time.Time`, by its two numeric fields (the zero value is the zero time). -/
structure time.Time where
  wall : Nat := 0
  ext : Int := 0
  deriving DecidableEq, Repr

/-- The struct `TeamS`. -/
structure TeamS where
  Id : Int := 0
  Name : GoString := []
  Background : GoString := []
  Banner : GoString := []
  Logo : GoString := []
  Info : GoString := []
  DisplayName : GoString := []
  CreatedAt : GoString := []
  UpdatedAt : GoString := []
  deriving DecidableEq, Repr

/-- The struct `ChannelLinksS`. -/
structure ChannelLinksS where
  Chat : GoString := []
  Commercial : GoString := []
  Videos : GoString := []
  Teams : GoString := []
  Editors : GoString := []
  Subsciptions : GoString := []
  Features : GoString := []
  StreamKey : GoString := []
  Follows : GoString := []
  deriving DecidableEq, Repr

/-- The struct `ChannelS`. -/
structure ChannelS where
  Name : GoString := []
  Status : GoString := []
  Game : GoString := []
  Delay : Int := 0
  Id : Int := 0
  CreatedAt : GoString := []
  UpdatedAt : GoString := []
  PrimaryTeamName : GoString := []
  PrimaryTeamDisplayName : GoString := []
  Teams : List TeamS := []
  Title : GoString := []
  Mature : Bool := false
  AbuseReported : Bool := false
  Banner : GoString := []
  VideoBanner : GoString := []
  Views : Int := 0
  Followers : Int := 0
  Background : GoString := []
  ProfileBanner : GoString := []
  ProfileBannerBackgroundColor : GoString := []
  Links : ChannelLinksS := {}
  Logo : GoString := []
  Url : GoString := []
  DisplayName : GoString := []
  Language : GoString := []
  BroadcasterLanguage : GoString := []
  StreamKey : GoString := []
  Login : GoString := []
  Email : GoString := []
  deriving DecidableEq, Repr

/-- The struct `UserS`. -/
structure UserS where
  Name : GoString := []
  Logo : GoString := []
  ID : Int := 0
  DisplayName : GoString := []
  Type_ : GoString := []
  Bio : GoString := []
  CreatedAt : time.Time := {}
  UpdatedAt : time.Time := {}
  deriving DecidableEq, Repr

/-- The struct `VideoS`. -/
structure VideoS where
  Title : GoString := []
  ID : GoString := []
  Embed : GoString := []
  Url : GoString := []
  Views : Int := 0
  Preview : GoString := []
  Length : Int := 0
  Description : GoString := []
  BroadcastId : Int := 0
  RecordedAt : GoString := []
  Game : GoString := []
  Channel : ChannelS := {}
  deriving DecidableEq, Repr

/-- The struct `LinksS`. -/
structure LinksS where
  Next : GoString := []
  deriving DecidableEq, Repr

/-- The struct `VideosS`. -/
structure VideosS where
  Videos : List VideoS := []
  Links : LinksS := {}
  deriving DecidableEq, Repr

/-- The struct `FollowS`. -/
structure FollowS where
  User : UserS := {}
  deriving DecidableEq, Repr

/-- The struct `FollowsS`. -/
structure FollowsS where
  Follows : List FollowS := []
  Total : Int := 0
  Links : LinksS := {}
  deriving DecidableEq, Repr

/-- The struct `PanelDataS`. -/
structure PanelDataS where
  Link : GoString := []
  Image : GoString := []
  Title : GoString := []
  Description : GoString := []
  deriving DecidableEq, Repr

/-- The struct `PanelS`. -/
structure PanelS where
  Id : Int := 0
  DisplayOrder : Int := 0
  Kind : GoString := []
  HtmlDescription : GoString := []
  UserId : Int := 0
  Data : PanelDataS := {}
  Channel : GoString := []
  deriving DecidableEq, Repr

/-- The struct `SubS`. -/
structure SubS where
  Id : GoString := []
  User : UserS := {}
  deriving DecidableEq, Repr

/-- The struct `SubsS`. -/
structure SubsS where
  Total : Int := 0
  Links : LinksS := {}
  Subscriptions : List SubS := []
  deriving DecidableEq, Repr

/-- The struct `AccessTokenS`. -/
structure AccessTokenS where
  Sig : GoString := []
  MobileRestricted : Bool := false
  Token : GoString := []
  deriving DecidableEq, Repr

/-! ## channels.go: the methods of `ChannelsMethod`

Each method is given the HTTP client and the JSON decoder of its destination type. The
values it returns are read off the result: the pointer is `dest`, the error is `err`. -/

/-- The result of a method that returns `nil, err` before any request is made. -/
def GetResult.failed {α : Type} (err : GoError) : GetResult α :=
  { resp := none, err := some err, dest := none, sent := none, received := none,
    bodyClosed := false }

/-- The path `rel` that the method `Channel` computes. -/
def ChannelsMethod.channelRel (name : GoString) : GoString :=
  if name ≠ [] then lit "channels/" ++ name else lit "channel"

/-- The method `ChannelsMethod.Channel`. -/
def ChannelsMethod.Channel (client : Doer) (decode : Decoder ChannelS) (c : Client)
    (name : GoString) : GetResult ChannelS :=
  let rel := ChannelsMethod.channelRel name
  Client.Get client decode c rel (some {})

/-- The lines shared by the methods that take a `*ListOptions`: when `opt` is not nil,
`"?" + v.Encode()` is appended to `rel`, for `v` the `query.Values` of `opt`. -/
def ChannelsMethod.withListOptions (rel : GoString) (opt : Option ListOptions) :
    Except GoError GoString :=
  match opt with
  | some opt =>
    match query.Values opt.fields with
    | Except.error err => Except.error err
    | Except.ok v => Except.ok (rel ++ lit "?" ++ v.Encode)
  | none => Except.ok rel

/-- The method `ChannelsMethod.Videos`. -/
def ChannelsMethod.Videos (client : Doer) (decode : Decoder VideosS) (c : Client)
    (name : GoString) (opt : Option ListOptions) : GetResult VideosS :=
  match ChannelsMethod.withListOptions (lit "channels/" ++ name ++ lit "/videos") opt with
  | Except.error err => GetResult.failed err
  | Except.ok rel => Client.Get client decode c rel (some {})

/-- The method `ChannelsMethod.Follows`. -/
def ChannelsMethod.Follows (client : Doer) (decode : Decoder FollowsS) (c : Client)
    (name : GoString) (opt : Option ListOptions) : GetResult FollowsS :=
  match ChannelsMethod.withListOptions (lit "channels/" ++ name ++ lit "/follows") opt with
  | Except.error err => GetResult.failed err
  | Except.ok rel => Client.Get client decode c rel (some {})

/-- The method `ChannelsMethod.Panels`. -/
def ChannelsMethod.Panels (client : Doer) (decode : Decoder (List PanelS)) (c : Client)
    (name : GoString) (opt : Option ListOptions) : GetResult (List PanelS) :=
  match ChannelsMethod.withListOptions (lit "channels/" ++ name ++ lit "/panels") opt with
  | Except.error err => GetResult.failed err
  | Except.ok rel => Client.GetAPI client decode c rel (some [])

/-- The method `ChannelsMethod.AccessToken`. -/
def ChannelsMethod.AccessToken (client : Doer) (decode : Decoder AccessTokenS) (c : Client)
    (name : GoString) : GetResult AccessTokenS :=
  let rel := lit "channels/" ++ name ++ lit "/access_token"
  Client.GetAPI client decode c rel (some {})

/-- The assignments that `M3U8` makes to `*opt` before it builds the query;
`random` is the value that `rand.Int()` returns. -/
def ChannelsMethod.m3u8Override (opt : M3U8Options) (random : Nat) : M3U8Options :=
  { opt with AllowAudioOnly := true, AllowSource := true, Type_ := lit "any",
             Random := (random : Int), Player := lit "twitchweb" }

/-- The path `rel` that the method `M3U8` computes, or the error of `query.Values`. -/
def ChannelsMethod.m3u8Rel (name : GoString) (opt : Option M3U8Options) (random : Nat) :
    Except GoError GoString :=
  let rel := lit "channel/hls/" ++ name ++ lit ".m3u8"
  match opt with
  | some opt =>
    match query.Values (ChannelsMethod.m3u8Override opt random).fields with
    | Except.error err => Except.error err
    | Except.ok v => Except.ok (rel ++ lit "?" ++ v.Encode)
  | none => Except.ok rel

/-- The method `ChannelsMethod.M3U8`: its result and the value of `*opt` after the call. -/
def ChannelsMethod.M3U8 (client : Doer) (c : Client) (name : GoString)
    (opt : Option M3U8Options) (random : Nat) : UsherResult × Option M3U8Options :=
  match ChannelsMethod.m3u8Rel name opt random with
  | Except.error err =>
    ({ body := [], err := some err, sent := none, received := none, bodyClosed := false },
      opt.map fun o => ChannelsMethod.m3u8Override o random)
  | Except.ok rel =>
    (Client.GetUsher client c rel, opt.map fun o => ChannelsMethod.m3u8Override o random)

/-- The method `ChannelsMethod.subscriptions`. -/
def ChannelsMethod.subscriptions (client : Doer) (decode : Decoder SubsS) (c : Client)
    (name : GoString) (opt : Option ListOptions) : GetResult SubsS :=
  match ChannelsMethod.withListOptions (lit "channels/" ++ name ++ lit "/subscriptions") opt with
  | Except.error err => GetResult.failed err
  | Except.ok rel => Client.Get client decode c rel (some {})

namespace json

/-- A JSON value as the scanner delimits it: numbers and strings keep their text. -/
inductive Value where
  | null
  | bool (b : Bool)
  | number (text : GoString)
  | string (raw : GoString)
  | array (items : List Value)
  | object (members : List (GoString × Value))

/-- An entry of the scanner's `parseState` stack, with what was read of the array or
object so far. An object with a key is waiting for `:` or for the value of that key. -/
inductive Frame where
  | array (items : List Value)
  | object (members : List (GoString × Value)) (key : Option GoString)

/-- The `step` functions of the scanner (`stateBeginValue`, `stateInString`, ...). -/
inductive Step where
  | beginValue
  | beginValueOrEmpty
  | beginStringOrEmpty
  | beginString
  | endValue
  | inString
  | inStringEsc
  /-- `stateInStringEscU`, `U1`, `U12`, `U123`: `more` hexadecimal digits to come. -/
  | inStringEscU (more : Nat)
  | neg
  | zero
  | one
  | dot
  | dot0
  | e
  | eSign
  | e0
  /-- The states `stateT`, `stateTr`, ... of the literals `true`, `false`, `null`: the
  literal `name` is being read and the bytes `rest` are still to come. -/
  | inLiteral (name rest : GoString)

/-- Go `json.scanner`: the step function, the stack, the bytes of the string or number
being read, and the top-level value when it is complete. -/
structure Scanner where
  step : Step := Step.beginValue
  parseState : List Frame := []
  token : GoString := []
  top : Option Value := none

/-- What the scanner says after a byte. -/
inductive Outcome where
  /-- `scanContinue` and the like: more bytes are needed. -/
  | continue (s : Scanner)
  /-- `scanEnd`: the top-level value is complete. -/
  | done (v : Value)
  /-- `scanError`, with the byte and the context of the `SyntaxError`. -/
  | error (c : Byte) (context : GoString)

/-- Go `json.isSpace`. -/
def isSpace (c : Byte) : Bool :=
  decide (c = ch ' ' ∨ c = ch '\t' ∨ c = ch '\r' ∨ c = ch '\n')

/-- The constant `maxNestingDepth`. -/
def maxNestingDepth : Nat := 10000

/-- A complete value is handed to the array or object that is open, or kept as the
top-level value; the scanner goes to `stateEndValue`. -/
def store (s : Scanner) (v : Value) : Scanner :=
  match s.parseState with
  | [] => { s with step := Step.endValue, token := [], top := some v }
  | Frame.array items :: rest =>
    { s with step := Step.endValue, token := [],
             parseState := Frame.array (items ++ [v]) :: rest }
  | Frame.object members (some key) :: rest =>
    { s with step := Step.endValue, token := [],
             parseState := Frame.object (members ++ [(key, v)]) none :: rest }
  | Frame.object members none :: rest =>
    match v with
    | Value.string raw =>
      { s with step := Step.endValue, token := [],
               parseState := Frame.object members (some raw) :: rest }
    | _ => { s with step := Step.endValue, token := [] }

/-- The closing bracket of an array or object: the entry is popped from the stack. When
the stack is empty the value is the top-level value and the scan ends (`readValue`
invents the byte that the scanner waits for). -/
def close (s : Scanner) (v : Value) : Outcome :=
  match s.parseState with
  | [] => Outcome.done v
  | _ :: [] => Outcome.done v
  | _ :: rest => Outcome.continue (store { s with parseState := rest } v)

/-- Go `stateEndValue`: after a value, `c` is a separator or a closing bracket; at the
top level any byte ends the scan (`stateEndTop`). -/
def endValue (s : Scanner) (c : Byte) : Outcome :=
  match s.parseState with
  | [] =>
    match s.top with
    | some v => Outcome.done v
    | none => Outcome.error c (lit "looking for beginning of value")
  | Frame.object members (some key) :: rest =>
    if isSpace c then Outcome.continue { s with step := Step.endValue }
    else if c = ch ':' then
      Outcome.continue
        { s with step := Step.beginValue, parseState := Frame.object members (some key) :: rest }
    else Outcome.error c (lit "after object key")
  | Frame.object members none :: _ =>
    if isSpace c then Outcome.continue { s with step := Step.endValue }
    else if c = ch ',' then Outcome.continue { s with step := Step.beginString }
    else if c = ch '}' then close s (Value.object members)
    else Outcome.error c (lit "after object key:value pair")
  | Frame.array items :: _ =>
    if isSpace c then Outcome.continue { s with step := Step.endValue }
    else if c = ch ',' then Outcome.continue { s with step := Step.beginValue }
    else if c = ch ']' then close s (Value.array items)
    else Outcome.error c (lit "after array element")

/-- Go `pushParseState`: a new entry on the stack, unless the nesting is too deep. -/
def pushParseState (s : Scanner) (c : Byte) (frame : Frame) (next : Step) : Outcome :=
  if (frame :: s.parseState).length ≤ maxNestingDepth then
    Outcome.continue { s with step := next, parseState := frame :: s.parseState }
  else Outcome.error c (lit "exceeded max depth")

/-- Go `stateBeginValue`. -/
def beginValue (s : Scanner) (c : Byte) : Outcome :=
  if isSpace c then Outcome.continue s
  else if c = ch '{' then pushParseState s c (Frame.object [] none) Step.beginStringOrEmpty
  else if c = ch '[' then pushParseState s c (Frame.array []) Step.beginValueOrEmpty
  else if c = ch '"' then Outcome.continue { s with step := Step.inString, token := [] }
  else if c = ch '-' then Outcome.continue { s with step := Step.neg, token := [c] }
  else if c = ch '0' then Outcome.continue { s with step := Step.zero, token := [c] }
  else if c = ch 't' then
    Outcome.continue { s with step := Step.inLiteral (lit "true") (lit "rue") }
  else if c = ch 'f' then
    Outcome.continue { s with step := Step.inLiteral (lit "false") (lit "alse") }
  else if c = ch 'n' then
    Outcome.continue { s with step := Step.inLiteral (lit "null") (lit "ull") }
  else if decide (ch '1' ≤ c ∧ c ≤ ch '9') then
    Outcome.continue { s with step := Step.one, token := [c] }
  else Outcome.error c (lit "looking for beginning of value")

/-- Go `stateBeginString`. -/
def beginString (s : Scanner) (c : Byte) : Outcome :=
  if isSpace c then Outcome.continue s
  else if c = ch '"' then Outcome.continue { s with step := Step.inString, token := [] }
  else Outcome.error c (lit "looking for beginning of object key string")

/-- The end of a number at the byte `c`, which is not part of it: the number is stored
and `c` is read by `stateEndValue`. -/
def endNumber (s : Scanner) (c : Byte) : Outcome :=
  endValue (store s (Value.number s.token)) c

/-- The value of a literal. -/
def literalValue (name : GoString) : Value :=
  if name = lit "true" then Value.bool true
  else if name = lit "false" then Value.bool false
  else Value.null

/-- Go `scanner.step`: one byte is read in the current state. -/
def stepByte (s : Scanner) (c : Byte) : Outcome :=
  match s.step with
  | Step.beginValue => beginValue s c
  | Step.beginValueOrEmpty =>
    if isSpace c then Outcome.continue s
    else if c = ch ']' then endValue s c
    else beginValue s c
  | Step.beginStringOrEmpty =>
    if isSpace c then Outcome.continue s
    else if c = ch '}' then endValue s c
    else beginString s c
  | Step.beginString => beginString s c
  | Step.endValue => endValue s c
  | Step.inString =>
    if c = ch '"' then Outcome.continue (store s (Value.string s.token))
    else if c = ch '\\' then
      Outcome.continue { s with step := Step.inStringEsc, token := s.token ++ [c] }
    else if c.val < 32 then Outcome.error c (lit "in string literal")
    else Outcome.continue { s with token := s.token ++ [c] }
  | Step.inStringEsc =>
    if decide (c ∈ [ch 'b', ch 'f', ch 'n', ch 'r', ch 't', ch '\\', ch '/', ch '"']) then
      Outcome.continue { s with step := Step.inString, token := s.token ++ [c] }
    else if c = ch 'u' then
      Outcome.continue { s with step := Step.inStringEscU 4, token := s.token ++ [c] }
    else Outcome.error c (lit "in string escape code")
  | Step.inStringEscU more =>
    if url.ishex c then
      Outcome.continue
        { s with step := if more ≤ 1 then Step.inString else Step.inStringEscU (more - 1),
                 token := s.token ++ [c] }
    else Outcome.error c (lit "in \\u hexadecimal character escape")
  | Step.neg =>
    if c = ch '0' then Outcome.continue { s with step := Step.zero, token := s.token ++ [c] }
    else if decide (ch '1' ≤ c ∧ c ≤ ch '9') then
      Outcome.continue { s with step := Step.one, token := s.token ++ [c] }
    else Outcome.error c (lit "in numeric literal")
  | Step.one =>
    if isDigit c then Outcome.continue { s with token := s.token ++ [c] }
    else if c = ch '.' then
      Outcome.continue { s with step := Step.dot, token := s.token ++ [c] }
    else if c = ch 'e' ∨ c = ch 'E' then
      Outcome.continue { s with step := Step.e, token := s.token ++ [c] }
    else endNumber s c
  | Step.zero =>
    if c = ch '.' then Outcome.continue { s with step := Step.dot, token := s.token ++ [c] }
    else if c = ch 'e' ∨ c = ch 'E' then
      Outcome.continue { s with step := Step.e, token := s.token ++ [c] }
    else endNumber s c
  | Step.dot =>
    if isDigit c then Outcome.continue { s with step := Step.dot0, token := s.token ++ [c] }
    else Outcome.error c (lit "after decimal point in numeric literal")
  | Step.dot0 =>
    if isDigit c then Outcome.continue { s with token := s.token ++ [c] }
    else if c = ch 'e' ∨ c = ch 'E' then
      Outcome.continue { s with step := Step.e, token := s.token ++ [c] }
    else endNumber s c
  | Step.e =>
    if c = ch '+' ∨ c = ch '-' then
      Outcome.continue { s with step := Step.eSign, token := s.token ++ [c] }
    else if isDigit c then
      Outcome.continue { s with step := Step.e0, token := s.token ++ [c] }
    else Outcome.error c (lit "in exponent of numeric literal")
  | Step.eSign =>
    if isDigit c then Outcome.continue { s with step := Step.e0, token := s.token ++ [c] }
    else Outcome.error c (lit "in exponent of numeric literal")
  | Step.e0 =>
    if isDigit c then Outcome.continue { s with token := s.token ++ [c] }
    else endNumber s c
  | Step.inLiteral name rest =>
    match rest with
    | [] => Outcome.continue (store s (literalValue name))
    | expected :: more =>
      if c = expected then
        match more with
        | [] => Outcome.continue (store s (literalValue name))
        | _ => Outcome.continue { s with step := Step.inLiteral name more }
      else
        Outcome.error c
          (lit "in literal " ++ name ++ lit " (expecting '" ++ [expected] ++ lit "')")

/-- The loop of `Decoder.readValue` over the bytes that the body yields: the scan stops
at the first `scanEnd` or `scanError`; `Outcome.continue` at the end of the bytes means
that the value is not complete. -/
def scan : Scanner → GoString → Outcome
  | s, [] => Outcome.continue s
  | s, c :: rest =>
    match stepByte s c with
    | Outcome.continue s1 => scan s1 rest
    | Outcome.done v => Outcome.done v
    | Outcome.error c1 context => Outcome.error c1 context

/-- Go `json.nonSpace`. -/
def nonSpace (b : GoString) : Bool := b.any fun c => !isSpace c

/-- Go `Decoder.readValue` on a fresh decoder: the first JSON value of the body. When the
bytes end before the value does, a read error of the body is returned as it is; at a clean
end of the body a space is handed to the scanner, which completes a top-level number or
literal, and otherwise the error is `io.ErrUnexpectedEOF`, or `io.EOF` for a body of
white space. -/
def readValue (body : http.Body) : Except GoError Value :=
  match scan {} body.data with
  | Outcome.done v => Except.ok v
  | Outcome.error c context => Except.error (GoError.json (JsonFault.invalidCharacter c context))
  | Outcome.continue s =>
    match body.readErr with
    | some err => Except.error err
    | none =>
      match stepByte s (ch ' ') with
      | Outcome.done v => Except.ok v
      | _ =>
        if nonSpace body.data then Except.error (GoError.json JsonFault.unexpectedEOF)
        else Except.error (GoError.json JsonFault.eof)

/-- Go `Decoder.Decode` into a non-nil pointer: `readValue`, then `unmarshal` of the
value that was read; an error of `readValue` is returned before anything is stored. -/
def Decode {α : Type} (unmarshal : Value → α → α × Option GoError) :
    http.Body → α → α × Option GoError :=
  fun body dest =>
    match readValue body with
    | Except.error err => (dest, some err)
    | Except.ok v => unmarshal v dest

/-- Go `json.unquote` on the text between the quotes of a string that the scanner has
accepted: the escapes are decoded. Strings with a `\u` escape or a byte outside ASCII
are outside the model (`none`). -/
def unquote : GoString → Option GoString
  | [] => some []
  | c :: rest =>
    if 128 ≤ c.val then none
    else if c = ch '\\' then
      match rest with
      | [] => none
      | e :: rest1 =>
        let decoded : Option Byte :=
          if e = ch '"' ∨ e = ch '\\' ∨ e = ch '/' then some e
          else if e = ch 'b' then some 8
          else if e = ch 'f' then some 12
          else if e = ch 'n' then some 10
          else if e = ch 'r' then some 13
          else if e = ch 't' then some 9
          else none
        match decoded, unquote rest1 with
        | some b, some t => some (b :: t)
        | _, _ => none
    else
      match unquote rest with
      | some t => some (c :: t)
      | none => none

/-- How a struct field of kind `string` or `bool` is set. -/
inductive Setter (α : Type) where
  | string (set : α → GoString → α)
  | bool (set : α → Bool → α)

/-- A field of a destination struct, under the name of its `json` tag. -/
structure Field (α : Type) where
  name : GoString
  setter : Setter α

/-- The word by which an `UnmarshalTypeError` names a JSON value. -/
def kindName : Value → GoString
  | Value.null => lit "null"
  | Value.bool _ => lit "bool"
  | Value.number _ => lit "number"
  | Value.string _ => lit "string"
  | Value.array _ => lit "array"
  | Value.object _ => lit "object"

/-- Go `decodeState.value` on a field of kind `string` or `bool`: a value of the kind of
the field is stored, `null` has no effect, and any other value is a type error that
leaves the field as it is. -/
def storeField {α : Type} (f : Field α) (v : Value) (dest : α) : α × Option JsonFault :=
  match v with
  | Value.null => (dest, none)
  | Value.string raw =>
    match f.setter with
    | Setter.string set =>
      match unquote raw with
      | some s => (set dest s, none)
      | none => (dest, some JsonFault.outsideModel)
    | Setter.bool _ => (dest, some (JsonFault.typeMismatch (lit "string") f.name))
  | Value.bool b =>
    match f.setter with
    | Setter.bool set => (set dest b, none)
    | Setter.string _ => (dest, some (JsonFault.typeMismatch (lit "bool") f.name))
  | other => (dest, some (JsonFault.typeMismatch (kindName other) f.name))

/-- The field that an object key names: the field of exactly this name, or else the
first field whose name differs from the key in the case of letters only. -/
def findField {α : Type} (fields : List (Field α)) (key : GoString) : Option (Field α) :=
  match fields.find? fun f => decide (f.name = key) with
  | some f => some f
  | none => fields.find? fun f => decide (toLowerASCII f.name = toLowerASCII key)

/-- One turn of the loop of Go `decodeState.object` on a struct: the member is stored in
the field that its key names, or skipped when there is none; the first error is kept
(`saveError`) and the loop goes on. -/
def objectStep {α : Type} (fields : List (Field α)) (acc : α × Option JsonFault)
    (member : GoString × Value) : α × Option JsonFault :=
  match unquote member.1 with
  | none => (acc.1, acc.2.orElse fun _ => some JsonFault.outsideModel)
  | some key =>
    match findField fields key with
    | none => acc
    | some f =>
      match storeField f member.2 acc.1 with
      | (dest, err) => (dest, acc.2.orElse fun _ => err)

/-- Go `decodeState.unmarshal` into a pointer to a struct with the given fields: an
object is stored member by member, `null` has no effect, and any other value is a type
error; the error returned is the first one that was saved. -/
def unmarshalStruct {α : Type} (fields : List (Field α)) (v : Value) (dest : α) :
    α × Option GoError :=
  match v with
  | Value.object members =>
    match members.foldl (objectStep fields) (dest, none) with
    | (dest, err) => (dest, err.map GoError.json)
  | Value.null => (dest, none)
  | other => (dest, some (GoError.json (JsonFault.typeMismatch (kindName other) [])))

end json

/-- The fields of `AccessTokenS` with their `json` tags. -/
def AccessTokenS.jsonFields : List (json.Field AccessTokenS) :=
  [ { name := lit "sig", setter := json.Setter.string fun d s => { d with Sig := s } },
    { name := lit "mobile_restricted",
      setter := json.Setter.bool fun d b => { d with MobileRestricted := b } },
    { name := lit "token", setter := json.Setter.string fun d s => { d with Token := s } } ]

/-- The decoder `json.NewDecoder(body).Decode(r)` for `r` of type `*AccessTokenS`. -/
def AccessTokenS.decode : Decoder AccessTokenS :=
  json.Decode (json.unmarshalStruct AccessTokenS.jsonFields)

/-! ## Concrete inputs -/

/-- An HTTP client that answers every request with the given status and body. -/
def fixedClient (status : Int) (body : GoString) : Doer :=
  fun _ => Except.ok { StatusCode := status, Body := { data := body } }

/-- A decoder whose destination is a text: it stores the body as it is. -/
def textDecoder : Decoder GoString := fun body _ => (body.data, body.readErr)

/-- The process environment in which no variable is set. -/
def emptyEnviron : Environ := fun _ => []

/-- A process environment that sets the four variables that `NewClient` reads. -/
def sampleEnviron : Environ := fun name =>
  if name = lit "GO_TWITCH_CLIENTID" then lit "abc"
  else if name = lit "GO_TWITCH_CLIENTSECRET" then lit "s3cret"
  else if name = lit "GO_TWITCH_REDIRECTURL" then lit "http://localhost/cb"
  else if name = lit "GO_TWITCH_SCOPE" then lit "user_read"
  else []

/-- A client with a client id and an access token configured. -/
def configuredClient : Client :=
  { NewClient sampleEnviron with AccessToken := lit "tok" }

/-! ## Auxiliary notions for the properties -/

/-- Whether `reflectValue` adds the field. -/
def query.kept (f : query.Field) : Bool := !(f.omitempty && query.isEmptyValue f.value)

/-- The entry of the map that a kept field makes. -/
def query.entry (f : query.Field) : GoString × List GoString :=
  (f.name, [query.valueString f.value])

/-- One parameter as `Values.Encode` writes it: `QueryEscape(key)=QueryEscape(value)`. -/
def url.renderParam (p : GoString × GoString) : GoString :=
  url.QueryEscape p.1 ++ lit "=" ++ url.QueryEscape p.2

/-- The query text that holds the given parameters, in the given order, joined by `&`. -/
def url.renderQuery (params : List (GoString × GoString)) : GoString :=
  (lit "&").intercalate (params.map url.renderParam)

/-- The parameter that a kept field makes: its tag name and its printed value. -/
def query.param (f : query.Field) : GoString × GoString :=
  (f.name, query.valueString f.value)

/-- The fields in the ascending order of their tag names. -/
def query.sortedFields (fields : List query.Field) : List query.Field :=
  fields.insertionSort fun a b => a.name ≤ b.name

/-- From the spec (query parameter contract of the list endpoints): the parameters
`channel`, `direction`, `embeddable`, `game`, `hls`, `limit`, `live`, `offset` and
`period`, each one present if and only if its field is not at its zero or absent value
(empty string, 0, nil pointer), with the value of the field as its value. They are
listed in the order of their names. -/
def ListOptions.specParams (o : ListOptions) : List (GoString × GoString) :=
  (if o.Channel = [] then [] else [(lit "channel", o.Channel)]) ++
  (if o.Direction = [] then [] else [(lit "direction", o.Direction)]) ++
  (match o.Embeddable with
   | none => []
   | some b => [(lit "embeddable", if b then lit "true" else lit "false")]) ++
  (if o.Game = [] then [] else [(lit "game", o.Game)]) ++
  (match o.Hls with
   | none => []
   | some b => [(lit "hls", if b then lit "true" else lit "false")]) ++
  (if o.Limit = 0 then [] else [(lit "limit", Itoa o.Limit)]) ++
  (match o.Live with
   | none => []
   | some b => [(lit "live", if b then lit "true" else lit "false")]) ++
  (if o.Offset = 0 then [] else [(lit "offset", Itoa o.Offset)]) ++
  (if o.Period = [] then [] else [(lit "period", o.Period)])

/-- From the spec (playlist query contract): the parameters `$allow_audio_only` (forced
true), `allow_source` (forced true), `p` (the forced random integer), `player` (forced
"twitchweb"), `sig`, `token` and `type` (forced "any"); `p`, `sig` and `token` are left
out at their zero value. They are listed in the order of their names. -/
def M3U8Options.specParams (token sig : GoString) (random : Nat) :
    List (GoString × GoString) :=
  [(lit "$allow_audio_only", lit "true"), (lit "allow_source", lit "true")] ++
  (if (random : Int) = 0 then [] else [(lit "p", Itoa (random : Int))]) ++
  [(lit "player", lit "twitchweb")] ++
  (if sig = [] then [] else [(lit "sig", sig)]) ++
  (if token = [] then [] else [(lit "token", token)]) ++
  [(lit "type", lit "any")]

/-- The options of the spec's override law: the caller asks for the opposite of what
`M3U8` forces. -/
def contraryOptions : M3U8Options :=
  { Token := lit "tok", Sig := lit "sig", Player := lit "foo", AllowAudioOnly := false,
    AllowSource := false, Type_ := lit "live", Random := 99 }

/-- The request line of the request that was sent, if one was: the method and the text
of the URL. -/
def requestLine (sent : Option http.Request) : Option (GoString × GoString) :=
  sent.map fun req => (req.Method, req.URL.String)

/-- A decoder that reads nothing: it leaves the destination as it is and returns no
error. -/
def keepDecoder {α : Type} : Decoder α := fun _ dest => (dest, none)

/-- The outcome of `Client.finish` on a response with status 200 or 304. -/
theorem finish_success {α : Type} (client : Doer) (decode : Decoder α) (req : http.Request)
    (r : Option α) (resp : http.Response) (hc : client req = Except.ok resp)
    (hs : resp.StatusCode = 200 ∨ resp.StatusCode = 304) :
    (Client.finish client decode req r).resp = some resp ∧
    (Client.finish client decode req r).err = r.bind (fun d => (decode resp.Body d).2) ∧
    (Client.finish client decode req r).dest = r.map (fun d => (decode resp.Body d).1) ∧
    (Client.finish client decode req r).bodyClosed = true := by
  have hn : ¬ (resp.StatusCode ≠ http.StatusOK ∧ resp.StatusCode ≠ http.StatusNotModified) := by
    simp only [http.StatusOK, http.StatusNotModified]; omega
  unfold Client.finish
  simp only [hc]
  rw [if_neg hn]
  cases r <;> simp

/-- The outcome of `Client.finish` on a response with another status. -/
theorem finish_failure {α : Type} (client : Doer) (decode : Decoder α) (req : http.Request)
    (r : Option α) (resp : http.Response) (hc : client req = Except.ok resp)
    (hs : ¬ (resp.StatusCode = 200 ∨ resp.StatusCode = 304)) :
    (Client.finish client decode req r).resp = none ∧
    (Client.finish client decode req r).err =
      some (errors.New (lit "api error, response code: " ++ Itoa resp.StatusCode)) ∧
    (Client.finish client decode req r).dest = r ∧
    (Client.finish client decode req r).bodyClosed = false := by
  have hn : resp.StatusCode ≠ http.StatusOK ∧ resp.StatusCode ≠ http.StatusNotModified := by
    simp only [http.StatusOK, http.StatusNotModified]; omega
  unfold Client.finish
  simp only [hc]
  rw [if_pos hn]
  simp

/-- A call of `Client.finish` always records the request it was given as sent. -/
theorem finish_sent {α : Type} (client : Doer) (decode : Decoder α) (req : http.Request)
    (r : Option α) : (Client.finish client decode req r).sent = some req := by
  unfold Client.finish
  cases client req with
  | error e => rfl
  | ok resp =>
    dsimp only
    split
    · rfl
    · cases r <;> rfl

/-- A call of `Client.finish` records the response that the HTTP client returned. -/
theorem finish_received {α : Type} (client : Doer) (decode : Decoder α) (req : http.Request)
    (r : Option α) (resp : http.Response) (hc : client req = Except.ok resp) :
    (Client.finish client decode req r).received = some resp := by
  unfold Client.finish
  simp only [hc]
  split
  · rfl
  · cases r <;> rfl

/-- The status contract of `Client.finish` when the HTTP client answers the request
with `resp`. -/
theorem finish_answer {α : Type} (client : Doer) (decode : Decoder α) (req : http.Request)
    (r : Option α) (resp : http.Response) (hc : client req = Except.ok resp) :
    (Client.finish client decode req r).sent = some req ∧
    (Client.finish client decode req r).received = some resp ∧
    if resp.StatusCode = 200 ∨ resp.StatusCode = 304 then
      (Client.finish client decode req r).resp = some resp ∧
      (Client.finish client decode req r).err = r.bind (fun d => (decode resp.Body d).2) ∧
      (Client.finish client decode req r).dest = r.map (fun d => (decode resp.Body d).1)
    else
      (Client.finish client decode req r).resp = none ∧
      (Client.finish client decode req r).err =
        some (errors.New (lit "api error, response code: " ++ Itoa resp.StatusCode)) ∧
      (Client.finish client decode req r).dest = r := by
  refine ⟨finish_sent client decode req r, finish_received client decode req r resp hc, ?_⟩
  split
  · next hs =>
    obtain ⟨h1, h2, h3, _⟩ := finish_success client decode req r resp hc hs
    exact ⟨h1, h2, h3⟩
  · next hs =>
    obtain ⟨h1, h2, h3, _⟩ := finish_failure client decode req r resp hc hs
    exact ⟨h1, h2, h3⟩

/-- The status contract of `Client.GetUsher` when its request is built and the HTTP
client answers it with `resp`. -/
theorem GetUsher_answer (client : Doer) (c : Client) (path : GoString) (rel base : url.URL)
    (req : http.Request) (resp : http.Response) (hpath : url.Parse path = Except.ok rel)
    (hbase : url.Parse (lit "https://usher.ttvnw.net/api/") = Except.ok base)
    (hreq : http.NewRequest (lit "GET") (base.ResolveReference rel).String = Except.ok req)
    (hc : client req = Except.ok resp) :
    (Client.GetUsher client c path).sent = some req ∧
    (Client.GetUsher client c path).received = some resp ∧
    if resp.StatusCode = 200 ∨ resp.StatusCode = 304 then
      (Client.GetUsher client c path).body = (ioutil.ReadAll resp.Body).1 ∧
      (Client.GetUsher client c path).err = (ioutil.ReadAll resp.Body).2
    else
      (Client.GetUsher client c path).body = [] ∧
      (Client.GetUsher client c path).err =
        some (errors.New (lit "api error, response code: " ++ Itoa resp.StatusCode)) := by
  unfold Client.GetUsher
  simp only [hpath, hbase, hreq, hc]
  by_cases hs : resp.StatusCode = 200 ∨ resp.StatusCode = 304
  · have hn : ¬ (resp.StatusCode ≠ http.StatusOK ∧
        resp.StatusCode ≠ http.StatusNotModified) := by
      simp only [http.StatusOK, http.StatusNotModified]; omega
    rw [if_neg hn, if_pos hs]
    exact ⟨rfl, rfl, rfl, rfl⟩
  · have hn : resp.StatusCode ≠ http.StatusOK ∧
        resp.StatusCode ≠ http.StatusNotModified := by
      simp only [http.StatusOK, http.StatusNotModified]; omega
    rw [if_pos hn, if_neg hs]
    exact ⟨rfl, rfl, rfl, rfl⟩

/-- **C1.** Whenever `Client.Get`, `Client.GetAPI` or `Client.GetUsher` has built its
request (the path parses and `http.NewRequest` accepts the resolved URL) and the HTTP
client answers that request with a response `resp`, whatever its status: the call has
sent exactly that request and, on status 200 or 304, it goes on to decode (for
`GetUsher`, to read) the body, and returns the response with the outcome of the decoding
(the text read and the error of the reading), not the status error; on every other status
it returns a nil response (for `GetUsher` the empty string) and the error made from the
message "api error, response code: " followed by the decimal status, and the destination
`r` is as it was before the call. -/
theorem status_classification {α : Type} (client : Doer) (decode : Decoder α) (c : Client)
    (path : GoString) (r : Option α) (rel : url.URL) (resp : http.Response)
    (hpath : url.Parse path = Except.ok rel) :
    (∀ req, http.NewRequest (lit "GET") (c.BaseURL.ResolveReference rel).String =
        Except.ok req →
      client (c.addHeaders req) = Except.ok resp →
      (Client.Get client decode c path r).sent = some (c.addHeaders req) ∧
      (Client.Get client decode c path r).received = some resp ∧
      if resp.StatusCode = 200 ∨ resp.StatusCode = 304 then
        (Client.Get client decode c path r).resp = some resp ∧
        (Client.Get client decode c path r).err = r.bind (fun d => (decode resp.Body d).2) ∧
        (Client.Get client decode c path r).dest = r.map (fun d => (decode resp.Body d).1)
      else
        (Client.Get client decode c path r).resp = none ∧
        (Client.Get client decode c path r).err =
          some (errors.New (lit "api error, response code: " ++ Itoa resp.StatusCode)) ∧
        (Client.Get client decode c path r).dest = r) ∧
    (∀ base req, url.Parse (lit "https://api.twitch.tv/api/") = Except.ok base →
      http.NewRequest (lit "GET") (base.ResolveReference rel).String = Except.ok req →
      client (c.addHeaders req) = Except.ok resp →
      (Client.GetAPI client decode c path r).sent = some (c.addHeaders req) ∧
      (Client.GetAPI client decode c path r).received = some resp ∧
      if resp.StatusCode = 200 ∨ resp.StatusCode = 304 then
        (Client.GetAPI client decode c path r).resp = some resp ∧
        (Client.GetAPI client decode c path r).err = r.bind (fun d => (decode resp.Body d).2) ∧
        (Client.GetAPI client decode c path r).dest = r.map (fun d => (decode resp.Body d).1)
      else
        (Client.GetAPI client decode c path r).resp = none ∧
        (Client.GetAPI client decode c path r).err =
          some (errors.New (lit "api error, response code: " ++ Itoa resp.StatusCode)) ∧
        (Client.GetAPI client decode c path r).dest = r) ∧
    (∀ base req, url.Parse (lit "https://usher.ttvnw.net/api/") = Except.ok base →
      http.NewRequest (lit "GET") (base.ResolveReference rel).String = Except.ok req →
      client req = Except.ok resp →
      (Client.GetUsher client c path).sent = some req ∧
      (Client.GetUsher client c path).received = some resp ∧
      if resp.StatusCode = 200 ∨ resp.StatusCode = 304 then
        (Client.GetUsher client c path).body = (ioutil.ReadAll resp.Body).1 ∧
        (Client.GetUsher client c path).err = (ioutil.ReadAll resp.Body).2
      else
        (Client.GetUsher client c path).body = [] ∧
        (Client.GetUsher client c path).err =
          some (errors.New (lit "api error, response code: " ++ Itoa resp.StatusCode))) := by
  refine ⟨?_, ?_, ?_⟩
  · intro req hreq hc
    have h := finish_answer client decode (c.addHeaders req) r resp hc
    unfold Client.Get
    simp only [hpath, hreq]
    exact h
  · intro base req hbase hreq hc
    have h := finish_answer client decode (c.addHeaders req) r resp hc
    unfold Client.GetAPI
    simp only [hpath, hbase, hreq]
    exact h
  · intro base req hbase hreq hc
    exact GetUsher_answer client c path rel base req resp hpath hbase hreq hc

set_option maxRecDepth 100000 in
/-- The witness of **C1**: `Client.Get`, `Client.GetAPI` and `Client.GetUsher` on the
client of an empty environment, each one answered once with a status that is an error
(404) and once with a status that is not (200 or 304). -/
theorem status_classification_witness :
    ((Client.Get (fixedClient 404 (lit "{}")) textDecoder (NewClient emptyEnviron)
        (lit "channel") (some (lit "before"))).resp = none ∧
      (Client.Get (fixedClient 404 (lit "{}")) textDecoder (NewClient emptyEnviron)
        (lit "channel") (some (lit "before"))).err =
          some (errors.New (lit "api error, response code: 404")) ∧
      (Client.Get (fixedClient 404 (lit "{}")) textDecoder (NewClient emptyEnviron)
        (lit "channel") (some (lit "before"))).dest = some (lit "before")) ∧
    ((Client.Get (fixedClient 200 (lit "{}")) textDecoder (NewClient emptyEnviron)
        (lit "channel") (some (lit "before"))).resp =
          some { StatusCode := 200, Body := { data := lit "{}" } } ∧
      (Client.Get (fixedClient 200 (lit "{}")) textDecoder (NewClient emptyEnviron)
        (lit "channel") (some (lit "before"))).err = none ∧
      (Client.Get (fixedClient 200 (lit "{}")) textDecoder (NewClient emptyEnviron)
        (lit "channel") (some (lit "before"))).dest = some (lit "{}")) ∧
    ((Client.GetAPI (fixedClient 404 (lit "[]")) textDecoder (NewClient emptyEnviron)
        (lit "channels/foo/panels") (some (lit "before"))).resp = none ∧
      (Client.GetAPI (fixedClient 404 (lit "[]")) textDecoder (NewClient emptyEnviron)
        (lit "channels/foo/panels") (some (lit "before"))).err =
          some (errors.New (lit "api error, response code: 404")) ∧
      (Client.GetAPI (fixedClient 404 (lit "[]")) textDecoder (NewClient emptyEnviron)
        (lit "channels/foo/panels") (some (lit "before"))).dest = some (lit "before")) ∧
    ((Client.GetAPI (fixedClient 304 (lit "[]")) textDecoder (NewClient emptyEnviron)
        (lit "channels/foo/panels") (some (lit "before"))).resp =
          some { StatusCode := 304, Body := { data := lit "[]" } } ∧
      (Client.GetAPI (fixedClient 304 (lit "[]")) textDecoder (NewClient emptyEnviron)
        (lit "channels/foo/panels") (some (lit "before"))).err = none ∧
      (Client.GetAPI (fixedClient 304 (lit "[]")) textDecoder (NewClient emptyEnviron)
        (lit "channels/foo/panels") (some (lit "before"))).dest = some (lit "[]")) ∧
    ((Client.GetUsher (fixedClient 404 (lit "gone")) (NewClient emptyEnviron)
        (lit "channel/hls/foo.m3u8")).body = [] ∧
      (Client.GetUsher (fixedClient 404 (lit "gone")) (NewClient emptyEnviron)
        (lit "channel/hls/foo.m3u8")).err =
          some (errors.New (lit "api error, response code: 404"))) ∧
    ((Client.GetUsher (fixedClient 200 (lit "#EXTM3U")) (NewClient emptyEnviron)
        (lit "channel/hls/foo.m3u8")).body = lit "#EXTM3U" ∧
      (Client.GetUsher (fixedClient 200 (lit "#EXTM3U")) (NewClient emptyEnviron)
        (lit "channel/hls/foo.m3u8")).err = none) := by
  have n404 : ¬ ((404 : Int) = 200 ∨ (404 : Int) = 304) := by decide
  have y200 : (200 : Int) = 200 ∨ (200 : Int) = 304 := by decide
  have y304 : (304 : Int) = 200 ∨ (304 : Int) = 304 := by decide
  have g404 := (status_classification (fixedClient 404 (lit "{}")) textDecoder
    (NewClient emptyEnviron) (lit "channel") (some (lit "before")) _
    { StatusCode := 404, Body := { data := lit "{}" } } rfl).1 _ rfl rfl
  have g200 := (status_classification (fixedClient 200 (lit "{}")) textDecoder
    (NewClient emptyEnviron) (lit "channel") (some (lit "before")) _
    { StatusCode := 200, Body := { data := lit "{}" } } rfl).1 _ rfl rfl
  have a404 := (status_classification (fixedClient 404 (lit "[]")) textDecoder
    (NewClient emptyEnviron) (lit "channels/foo/panels") (some (lit "before")) _
    { StatusCode := 404, Body := { data := lit "[]" } } rfl).2.1 _ _ rfl rfl rfl
  have a304 := (status_classification (fixedClient 304 (lit "[]")) textDecoder
    (NewClient emptyEnviron) (lit "channels/foo/panels") (some (lit "before")) _
    { StatusCode := 304, Body := { data := lit "[]" } } rfl).2.1 _ _ rfl rfl rfl
  have u404 := (status_classification (fixedClient 404 (lit "gone")) textDecoder
    (NewClient emptyEnviron) (lit "channel/hls/foo.m3u8") (some (lit "before")) _
    { StatusCode := 404, Body := { data := lit "gone" } } rfl).2.2 _ _ rfl rfl rfl
  have u200 := (status_classification (fixedClient 200 (lit "#EXTM3U")) textDecoder
    (NewClient emptyEnviron) (lit "channel/hls/foo.m3u8") (some (lit "before")) _
    { StatusCode := 200, Body := { data := lit "#EXTM3U" } } rfl).2.2 _ _ rfl rfl rfl
  rw [if_neg n404] at g404 a404 u404
  rw [if_pos y200] at g200 u200
  rw [if_pos y304] at a304
  exact ⟨g404.2.2, g200.2.2, a404.2.2, a304.2.2, u404.2.2, u200.2.2⟩

/-- A request made by `http.NewRequest` has no header yet. -/
theorem NewRequest_header (method urlStr : GoString) (req : http.Request)
    (h : http.NewRequest method urlStr = Except.ok req) : req.Header = [] := by
  unfold http.NewRequest at h
  dsimp only at h
  generalize (if method = [] then lit "GET" else method) = m at h
  by_cases hv : http.validMethod m = true
  · rw [if_neg (not_not_intro hv)] at h
    cases hp : url.Parse urlStr with
    | error e => rw [hp] at h; cases h
    | ok u => rw [hp] at h; cases h; rfl
  · rw [if_pos hv] at h
    cases h

/-- The header map that `Client.addHeaders` builds on a request without headers. -/
theorem addHeaders_header (c : Client) (req0 : http.Request) (h0 : req0.Header = []) :
    (c.addHeaders req0).Header =
      [(lit "Accept", [lit "application/vnd.twitchtv.v2+json"])] ++
      (if c.AppInfo.ClientID = [] then [] else [(lit "Client-Id", [c.AppInfo.ClientID])]) ++
      (if c.AccessToken = [] then [] else [(lit "Authorization", [lit "OAuth " ++ c.AccessToken])]) := by
  have hA : http.CanonicalMIMEHeaderKey (lit "Accept") = lit "Accept" := by decide
  have hC : http.CanonicalMIMEHeaderKey (lit "Client-ID") = lit "Client-Id" := by decide
  have hZ : http.CanonicalMIMEHeaderKey (lit "Authorization") = lit "Authorization" := by decide
  have n1 : ¬ (lit "Accept" = lit "Client-Id") := by decide
  have n2 : ¬ (lit "Accept" = lit "Authorization") := by decide
  have n3 : ¬ (lit "Client-Id" = lit "Authorization") := by decide
  unfold Client.addHeaders
  by_cases hid : c.AppInfo.ClientID = [] <;> by_cases htok : c.AccessToken = [] <;>
    simp [hid, htok, h0, http.Header.Add, http.Header.append, hA, hC, hZ, n1, n2, n3]

/-- **C2.** Whenever `Client.Get` or `Client.GetAPI` has built its request (the path
parses and `http.NewRequest` accepts the resolved URL), it hands a request to the HTTP
client, with the method and the URL of the request built, that carries exactly these
headers, for every client id and access token: `Accept` with the value
"application/vnd.twitchtv.v2+json"; `Client-ID` (stored under its canonical spelling
`Client-Id`) with the client id, present if and only if the client id is not empty;
`Authorization` with "OAuth " followed by the access token, present if and only if the
access token is not empty. -/
theorem request_headers {α : Type} (client : Doer) (decode : Decoder α) (c : Client)
    (path : GoString) (r : Option α) (rel : url.URL)
    (hpath : url.Parse path = Except.ok rel) :
    (∀ req0, http.NewRequest (lit "GET") (c.BaseURL.ResolveReference rel).String =
        Except.ok req0 →
      ∃ req, (Client.Get client decode c path r).sent = some req ∧
        req.Method = req0.Method ∧ req.URL = req0.URL ∧
        req.Header =
          [(lit "Accept", [lit "application/vnd.twitchtv.v2+json"])] ++
          (if c.AppInfo.ClientID = [] then [] else [(lit "Client-Id", [c.AppInfo.ClientID])]) ++
          (if c.AccessToken = [] then []
            else [(lit "Authorization", [lit "OAuth " ++ c.AccessToken])]) ∧
        req.Header.Values (lit "Accept") = [lit "application/vnd.twitchtv.v2+json"] ∧
        req.Header.Values (lit "Client-ID") =
          (if c.AppInfo.ClientID = [] then [] else [c.AppInfo.ClientID]) ∧
        req.Header.Values (lit "Authorization") =
          (if c.AccessToken = [] then [] else [lit "OAuth " ++ c.AccessToken])) ∧
    (∀ base req0, url.Parse (lit "https://api.twitch.tv/api/") = Except.ok base →
      http.NewRequest (lit "GET") (base.ResolveReference rel).String = Except.ok req0 →
      ∃ req, (Client.GetAPI client decode c path r).sent = some req ∧
        req.Method = req0.Method ∧ req.URL = req0.URL ∧
        req.Header =
          [(lit "Accept", [lit "application/vnd.twitchtv.v2+json"])] ++
          (if c.AppInfo.ClientID = [] then [] else [(lit "Client-Id", [c.AppInfo.ClientID])]) ++
          (if c.AccessToken = [] then []
            else [(lit "Authorization", [lit "OAuth " ++ c.AccessToken])]) ∧
        req.Header.Values (lit "Accept") = [lit "application/vnd.twitchtv.v2+json"] ∧
        req.Header.Values (lit "Client-ID") =
          (if c.AppInfo.ClientID = [] then [] else [c.AppInfo.ClientID]) ∧
        req.Header.Values (lit "Authorization") =
          (if c.AccessToken = [] then [] else [lit "OAuth " ++ c.AccessToken])) := by
  have hA : http.CanonicalMIMEHeaderKey (lit "Accept") = lit "Accept" := by decide
  have hC : http.CanonicalMIMEHeaderKey (lit "Client-ID") = lit "Client-Id" := by decide
  have hZ : http.CanonicalMIMEHeaderKey (lit "Authorization") = lit "Authorization" := by decide
  have n1 : (lit "Client-Id" == lit "Accept") = false := by decide
  have n2 : (lit "Authorization" == lit "Accept") = false := by decide
  have n3 : (lit "Authorization" == lit "Client-Id") = false := by decide
  have n4 : (lit "Client-Id" == lit "Authorization") = false := by decide
  have hm : ∀ req0 : http.Request, (c.addHeaders req0).Method = req0.Method ∧
      (c.addHeaders req0).URL = req0.URL := by
    intro req0
    unfold Client.addHeaders
    dsimp only
    split <;> split <;> exact ⟨rfl, rfl⟩
  have key : ∀ req0 : http.Request, req0.Header = [] →
      (c.addHeaders req0).Method = req0.Method ∧ (c.addHeaders req0).URL = req0.URL ∧
      (c.addHeaders req0).Header =
        [(lit "Accept", [lit "application/vnd.twitchtv.v2+json"])] ++
        (if c.AppInfo.ClientID = [] then [] else [(lit "Client-Id", [c.AppInfo.ClientID])]) ++
        (if c.AccessToken = [] then []
          else [(lit "Authorization", [lit "OAuth " ++ c.AccessToken])]) ∧
      (c.addHeaders req0).Header.Values (lit "Accept") =
        [lit "application/vnd.twitchtv.v2+json"] ∧
      (c.addHeaders req0).Header.Values (lit "Client-ID") =
        (if c.AppInfo.ClientID = [] then [] else [c.AppInfo.ClientID]) ∧
      (c.addHeaders req0).Header.Values (lit "Authorization") =
        (if c.AccessToken = [] then [] else [lit "OAuth " ++ c.AccessToken]) := by
    intro req0 h0
    have hh := addHeaders_header c req0 h0
    refine ⟨(hm req0).1, (hm req0).2, hh, ?_, ?_, ?_⟩
    · rw [http.Header.Values, hh, hA]
      simp [List.lookup]
    · rw [http.Header.Values, hh, hC]
      by_cases hid : c.AppInfo.ClientID = [] <;> by_cases htok : c.AccessToken = [] <;>
        simp [hid, htok, List.lookup, n1, n4]
    · rw [http.Header.Values, hh, hZ]
      by_cases hid : c.AppInfo.ClientID = [] <;> by_cases htok : c.AccessToken = [] <;>
        simp [hid, htok, List.lookup, n2, n3]
  refine ⟨?_, ?_⟩
  · intro req0 hreq
    refine ⟨c.addHeaders req0, ?_, key req0 (NewRequest_header _ _ _ hreq)⟩
    unfold Client.Get
    simp only [hpath, hreq]
    exact finish_sent client decode _ r
  · intro base req0 hbase hreq
    refine ⟨c.addHeaders req0, ?_, key req0 (NewRequest_header _ _ _ hreq)⟩
    unfold Client.GetAPI
    simp only [hpath, hbase, hreq]
    exact finish_sent client decode _ r

set_option maxRecDepth 100000 in
/-- The witness of **C2**: `Client.Get` and `Client.GetAPI`, on a client with the client
id "abc" and the access token "tok" and on a client that has neither. -/
theorem request_headers_witness :
    (∃ req, (Client.Get (fixedClient 200 (lit "{}")) textDecoder configuredClient
        (lit "channel") none).sent = some req ∧
      req.Header = [(lit "Accept", [lit "application/vnd.twitchtv.v2+json"]),
        (lit "Client-Id", [lit "abc"]), (lit "Authorization", [lit "OAuth tok"])] ∧
      req.Header.Values (lit "Client-ID") = [lit "abc"]) ∧
    (∃ req, (Client.GetAPI (fixedClient 200 (lit "[]")) textDecoder configuredClient
        (lit "channels/foo/panels") none).sent = some req ∧
      req.Header = [(lit "Accept", [lit "application/vnd.twitchtv.v2+json"]),
        (lit "Client-Id", [lit "abc"]), (lit "Authorization", [lit "OAuth tok"])] ∧
      req.Header.Values (lit "Authorization") = [lit "OAuth tok"]) ∧
    (∃ req, (Client.Get (fixedClient 200 (lit "{}")) textDecoder (NewClient emptyEnviron)
        (lit "channel") none).sent = some req ∧
      req.Header = [(lit "Accept", [lit "application/vnd.twitchtv.v2+json"])] ∧
      req.Header.Values (lit "Client-ID") = []) ∧
    (∃ req, (Client.GetAPI (fixedClient 200 (lit "[]")) textDecoder (NewClient emptyEnviron)
        (lit "channels/foo/panels") none).sent = some req ∧
      req.Header = [(lit "Accept", [lit "application/vnd.twitchtv.v2+json"])] ∧
      req.Header.Values (lit "Authorization") = []) := by
  obtain ⟨r1, s1, _, _, h1, _, c1, _⟩ := (request_headers (fixedClient 200 (lit "{}"))
    textDecoder configuredClient (lit "channel") none _ rfl).1 _ rfl
  obtain ⟨r2, s2, _, _, h2, _, _, z2⟩ := (request_headers (fixedClient 200 (lit "[]"))
    textDecoder configuredClient (lit "channels/foo/panels") none _ rfl).2 _ _ rfl rfl
  obtain ⟨r3, s3, _, _, h3, _, c3, _⟩ := (request_headers (fixedClient 200 (lit "{}"))
    textDecoder (NewClient emptyEnviron) (lit "channel") none _ rfl).1 _ rfl
  obtain ⟨r4, s4, _, _, h4, _, _, z4⟩ := (request_headers (fixedClient 200 (lit "[]"))
    textDecoder (NewClient emptyEnviron) (lit "channels/foo/panels") none _ rfl).2 _ _ rfl rfl
  exact ⟨⟨r1, s1, h1, c1⟩, ⟨r2, s2, h2, z2⟩, ⟨r3, s3, h3, c3⟩, ⟨r4, s4, h4, z4⟩⟩

/-- **C3 (code defect).** When the HTTP client answers with a status other than 200
and 304, `Client.Get`, `Client.GetAPI` and `Client.GetUsher` return without having
closed the response body: the `defer resp.Body.Close()` stands after the early return.
Evaluated here on a 404 answer. -/
theorem body_not_closed_on_status_error :
    (Client.Get (fixedClient 404 (lit "{}")) textDecoder (NewClient emptyEnviron)
        (lit "channel") (some [])).received =
      some { StatusCode := 404, Body := { data := lit "{}" } } ∧
    (Client.Get (fixedClient 404 (lit "{}")) textDecoder (NewClient emptyEnviron)
        (lit "channel") (some [])).bodyClosed = false ∧
    (Client.GetAPI (fixedClient 404 (lit "{}")) textDecoder (NewClient emptyEnviron)
        (lit "channels/foo/panels") (some [])).received =
      some { StatusCode := 404, Body := { data := lit "{}" } } ∧
    (Client.GetAPI (fixedClient 404 (lit "{}")) textDecoder (NewClient emptyEnviron)
        (lit "channels/foo/panels") (some [])).bodyClosed = false ∧
    (Client.GetUsher (fixedClient 404 (lit "{}")) (NewClient emptyEnviron)
        (lit "channel/hls/foo.m3u8")).received =
      some { StatusCode := 404, Body := { data := lit "{}" } } ∧
    (Client.GetUsher (fixedClient 404 (lit "{}")) (NewClient emptyEnviron)
        (lit "channel/hls/foo.m3u8")).bodyClosed = false := by
  decide

/-- The counterexample to **C9** as stated: with the client id "abc" configured, the
request that `Client.GetUsher` sends has no `Client-ID` header (and, with the access
token "tok", no `Authorization` header). -/
theorem usher_headers_counterexample :
    configuredClient.AppInfo.ClientID = lit "abc" ∧
    configuredClient.AccessToken = lit "tok" ∧
    ((Client.GetUsher (fixedClient 200 (lit "#EXTM3U")) configuredClient
        (lit "channel/hls/foo.m3u8")).sent.map fun req => req.Header.Get (lit "Client-ID")) =
      some [] ∧
    ((Client.GetUsher (fixedClient 200 (lit "#EXTM3U")) configuredClient
        (lit "channel/hls/foo.m3u8")).sent.map fun req =>
          req.Header.Values (lit "Authorization")) = some [] := by
  decide

/-- **C9 (amended).** Whatever the client id and the access token are, the request
that `Client.GetUsher` sends carries no header at all: no `Accept`, no `Client-ID`
and no `Authorization`. -/
theorem usher_headers (client : Doer) (c : Client) (path : GoString) (req : http.Request)
    (h : (Client.GetUsher client c path).sent = some req) :
    req.Header = [] ∧
    req.Header.Values (lit "Accept") = [] ∧
    req.Header.Values (lit "Client-ID") = [] ∧
    req.Header.Values (lit "Authorization") = [] := by
  have hH : req.Header = [] := by
    revert h
    unfold Client.GetUsher
    cases url.Parse path with
    | error e => intro h; cases h
    | ok rel =>
      dsimp only
      generalize (match url.Parse (lit "https://usher.ttvnw.net/api/") with
        | Except.ok u => u
        | Except.error _ => ({} : url.URL)) = base
      cases hn : http.NewRequest (lit "GET") (base.ResolveReference rel).String with
      | error e => intro h; cases h
      | ok req0 =>
        dsimp only
        have h0 := NewRequest_header _ _ _ hn
        cases client req0 with
        | error e => intro h; cases h; exact h0
        | ok resp =>
          dsimp only
          split <;> (intro h; cases h; exact h0)
  refine ⟨hH, ?_, ?_, ?_⟩ <;> simp [http.Header.Values, hH]

/-- The witness of **C9 (amended)**: `Client.GetUsher` on a client with the client id
"abc" and the access token "tok". -/
theorem usher_headers_witness :
    ∃ req, (Client.GetUsher (fixedClient 200 (lit "#EXTM3U")) configuredClient
        (lit "channel/hls/foo.m3u8")).sent = some req ∧ req.Header = [] :=
  match h : (Client.GetUsher (fixedClient 200 (lit "#EXTM3U")) configuredClient
      (lit "channel/hls/foo.m3u8")).sent with
  | some req => ⟨req, rfl, (usher_headers _ _ _ req h).1⟩
  | none => absurd h (by decide)

/-- **C10.** For every process environment, the client that `NewClient` returns has
its five `AppInfo` fields read from four variables: `ClientID` and `State` both from
GO_TWITCH_CLIENTID, `ClientSecret` from GO_TWITCH_CLIENTSECRET, `RedirectURI` from
GO_TWITCH_REDIRECTURL and `Scope` from GO_TWITCH_SCOPE; so `State` equals `ClientID`,
and `AccessToken` is empty. -/
theorem NewClient_appinfo (getenv : Environ) :
    (NewClient getenv).AppInfo =
      { ClientID := getenv (lit "GO_TWITCH_CLIENTID"),
        ClientSecret := getenv (lit "GO_TWITCH_CLIENTSECRET"),
        State := getenv (lit "GO_TWITCH_CLIENTID"),
        RedirectURI := getenv (lit "GO_TWITCH_REDIRECTURL"),
        Scope := getenv (lit "GO_TWITCH_SCOPE") } ∧
    (NewClient getenv).AppInfo.State = (NewClient getenv).AppInfo.ClientID ∧
    (NewClient getenv).AccessToken = [] :=
  ⟨rfl, rfl, rfl⟩

/-! ## Properties of the query encoding -/

/-- Adding a key that the map does not hold yet puts it behind the others. -/
theorem Values_Add_new (v : url.Values) (key value : GoString)
    (h : key ∉ v.map Prod.fst) : v.Add key value = v ++ [(key, [value])] := by
  induction v with
  | nil => rfl
  | cons p v ih =>
    obtain ⟨k, vs⟩ := p
    simp only [List.map_cons, List.mem_cons, not_or] at h
    have hk : ¬ k = key := fun e => h.1 e.symm
    simp only [url.Values.Add, hk, if_false, ih h.2, List.cons_append]

/-- On fields with pairwise different names, `reflectValue` appends one entry for each
kept field, in the order of the fields. -/
theorem reflectValue_eq (fields : List query.Field) (v : url.Values)
    (hnd : (fields.map fun f => f.name).Nodup)
    (hv : ∀ f ∈ fields, f.name ∉ v.map Prod.fst) :
    query.reflectValue v fields = v ++ (fields.filter query.kept).map query.entry := by
  induction fields generalizing v with
  | nil => simp [query.reflectValue]
  | cons f fs ih =>
    simp only [List.map_cons, List.nodup_cons] at hnd
    have hf := hv f (List.mem_cons_self _ _)
    unfold query.reflectValue
    simp only [List.foldl_cons]
    by_cases hk : query.kept f = true
    · have hc : (f.omitempty && query.isEmptyValue f.value) = false := by
        revert hk; unfold query.kept
        cases f.omitempty <;> cases query.isEmptyValue f.value <;> simp
      simp only [hc, Bool.false_eq_true, if_false]
      rw [Values_Add_new v _ _ hf]
      have := ih (v ++ [(f.name, [query.valueString f.value])]) hnd.2 (by
        intro g hg
        simp only [List.map_append, List.map_cons, List.map_nil, List.mem_append,
          List.mem_singleton, not_or]
        refine ⟨hv g (List.mem_cons_of_mem _ hg), ?_⟩
        intro e
        exact hnd.1 (List.mem_map.mpr ⟨g, hg, e⟩))
      unfold query.reflectValue at this
      rw [this, List.filter_cons_of_pos hk]
      simp [query.entry]
    · have hc : (f.omitempty && query.isEmptyValue f.value) = true := by
        revert hk; unfold query.kept
        cases f.omitempty <;> cases query.isEmptyValue f.value <;> simp
      simp only [hc, if_true]
      have := ih v hnd.2 (fun g hg => hv g (List.mem_cons_of_mem _ hg))
      unfold query.reflectValue at this
      rw [this, List.filter_cons_of_neg hk]
/-- Joining a list that has at least two texts. -/
theorem intercalate_cons_cons (sep x y : GoString) (l : List GoString) :
    sep.intercalate (x :: y :: l) = x ++ sep ++ sep.intercalate (y :: l) := by
  simp [List.intercalate, List.intersperse]

/-- Joining a list of one text. -/
theorem intercalate_singleton (sep x : GoString) : sep.intercalate [x] = x := by
  simp [List.intercalate, List.intersperse]

/-- The outer loop of `Values.Encode` when every key has one value `g k`: the
parameters are written one after the other, with `&` between them. -/
theorem encode_loop (g : GoString → GoString) (ks : List GoString) (buf : GoString) :
    ks.foldl (fun buf k => url.encodePair (url.QueryEscape k) buf (g k)) buf =
      if ks = [] then buf
      else (if 0 < buf.length then buf ++ lit "&" else buf) ++
        url.renderQuery (ks.map fun k => (k, g k)) := by
  induction ks generalizing buf with
  | nil => simp
  | cons k ks ih =>
    simp only [List.foldl_cons, List.cons_ne_nil, if_false]
    rw [ih]
    have hpos : 0 < (url.encodePair (url.QueryEscape k) buf (g k)).length := by
      have : 0 < (lit "=").length := by decide
      simp only [url.encodePair, List.length_append]
      omega
    cases ks with
    | nil =>
      simp [url.renderQuery, intercalate_singleton, url.encodePair, url.renderParam]
    | cons k2 ks =>
      simp only [List.cons_ne_nil, if_false, hpos, if_true]
      simp only [url.renderQuery, List.map_cons, intercalate_cons_cons, url.encodePair,
        url.renderParam, List.append_assoc]

/-- A map whose keys each hold one value: the lookup of a key of the map. -/
theorem lookup_entries (es : List query.Field) (hnd : (es.map fun f => f.name).Nodup)
    (f : query.Field) (hf : f ∈ es) :
    (es.map query.entry).lookup f.name = some [query.valueString f.value] := by
  induction es with
  | nil => cases hf
  | cons e es ih =>
    simp only [List.map_cons, List.nodup_cons] at hnd
    simp only [List.map_cons, query.entry, List.lookup]
    rcases List.mem_cons.mp hf with rfl | hmem
    · simp
    · have hne : (f.name == e.name) = false := by
        simp only [beq_eq_false_iff_ne, ne_eq]
        intro e1
        exact hnd.1 (List.mem_map.mpr ⟨f, hmem, e1⟩)
      simp only [hne]
      exact ih hnd.2 hmem
/-- Two loops that agree on the elements of the list give the same result. -/
theorem foldl_agree {α β : Type} (f g : β → α → β) (l : List α) (b : β)
    (h : ∀ a ∈ l, ∀ b, f b a = g b a) : l.foldl f b = l.foldl g b := by
  induction l generalizing b with
  | nil => rfl
  | cons a l ih =>
    simp only [List.foldl_cons]
    rw [h a (List.mem_cons_self _ _) b]
    exact ih _ (fun x hx => h x (List.mem_cons_of_mem _ hx))

/-- `Values.Encode` on a map that holds one entry for each of the fields `es`. -/
theorem encode_entries (es : List query.Field) (hnd : (es.map fun f => f.name).Nodup) :
    url.Values.Encode (es.map query.entry) =
      url.renderQuery ((url.sortStrings (es.map fun f => f.name)).map fun k =>
        (k, url.Values.Get (es.map query.entry) k)) := by
  have hkeys : (es.map query.entry).map Prod.fst = es.map fun f => f.name := by
    simp [query.entry, Function.comp_def]
  unfold url.Values.Encode
  rw [hkeys]
  rw [foldl_agree _ (fun buf k => url.encodePair (url.QueryEscape k) buf
    (url.Values.Get (es.map query.entry) k))]
  · rw [encode_loop]
    split
    · next h => simp [h, url.renderQuery, List.intercalate]
    · simp
  · intro k hk buf
    have hk' : k ∈ es.map fun f => f.name :=
      (List.perm_insertionSort _ _).subset hk
    obtain ⟨f, hf, rfl⟩ := List.mem_map.mp hk'
    have hl := lookup_entries es hnd f hf
    simp [hl, url.Values.Get]

/-- The sorted keys of the kept fields are the names of the kept fields among the
fields sorted by name. -/
theorem sorted_kept_names (fields : List query.Field) :
    url.sortStrings ((fields.filter query.kept).map fun f => f.name) =
      ((query.sortedFields fields).filter query.kept).map fun f => f.name := by
  haveI : IsTotal query.Field (fun a b => a.name ≤ b.name) := ⟨fun a b => le_total a.name b.name⟩
  haveI : IsTrans query.Field (fun a b => a.name ≤ b.name) :=
    ⟨fun a b c h1 h2 => le_trans h1 h2⟩
  apply List.eq_of_perm_of_sorted (r := fun a b : GoString => a ≤ b)
  · refine (List.perm_insertionSort _ _).trans ?_
    exact (((List.perm_insertionSort _ fields).symm).filter _).map _
  · exact List.sorted_insertionSort _ _
  · have hs : List.Sorted (fun a b : query.Field => a.name ≤ b.name)
        ((query.sortedFields fields).filter query.kept) :=
      (List.sorted_insertionSort _ fields).filter _
    exact List.pairwise_map.mpr hs

/-- The names of the fields sorted by name are the names of the fields, reordered. -/
theorem sortedFields_nodup (fields : List query.Field)
    (hnd : (fields.map fun f => f.name).Nodup) :
    ((query.sortedFields fields).map fun f => f.name).Nodup :=
  ((List.perm_insertionSort _ fields).map _).nodup_iff.mpr hnd

/-- `Values.Encode` of the `query.Values` of a struct whose fields have pairwise
different tag names: the parameters of the kept fields, in the order of their names. -/
theorem encode_fields (fields : List query.Field)
    (hnd : (fields.map fun f => f.name).Nodup) :
    url.Values.Encode (query.reflectValue [] fields) =
      url.renderQuery (((query.sortedFields fields).filter query.kept).map query.param) := by
  rw [reflectValue_eq fields [] hnd (by simp), List.nil_append]
  have hnd' : ((fields.filter query.kept).map fun f => f.name).Nodup :=
    hnd.sublist ((List.filter_sublist _).map _)
  rw [encode_entries _ hnd', sorted_kept_names, List.map_map]
  congr 1
  apply List.map_congr_left
  intro f hf
  have hmem : f ∈ fields.filter query.kept := by
    have h1 := List.mem_filter.mp hf
    exact List.mem_filter.mpr ⟨(List.perm_insertionSort _ fields).subset h1.1, h1.2⟩
  have hl := lookup_entries _ hnd' f hmem
  simp [url.Values.Get, hl, query.param]
set_option maxRecDepth 100000 in
set_option maxHeartbeats 4000000 in
/-- Nothing that `QueryEscape` writes for a byte is one of the separators `&`, `=`, `;`. -/
theorem escapeByte_clean : ∀ c : Byte,
    (url.escapeByte c url.encoding.encodeQueryComponent).all
      (fun b => decide (b ≠ ch '&' ∧ b ≠ ch '=' ∧ b ≠ ch ';')) = true := by
  decide

set_option maxRecDepth 100000 in
/-- An escaped byte is written as `%` and two hexadecimal digits that give it back. -/
theorem escapeByte_hex : ∀ c : Byte, c ≠ ch ' ' →
    url.shouldEscape c url.encoding.encodeQueryComponent = true →
    url.ishex (url.upperhex (c.val / 16)) = true ∧
    url.ishex (url.upperhex (c.val % 16)) = true ∧
    (Fin.ofNat (url.unhex (url.upperhex (c.val / 16)) * 16 +
      url.unhex (url.upperhex (c.val % 16))) : Byte) = c := by
  decide

set_option maxRecDepth 100000 in
/-- A byte that is not escaped is neither `%` nor `+` nor a space. -/
theorem unescaped_plain : ∀ c : Byte,
    url.shouldEscape c url.encoding.encodeQueryComponent = false →
    c ≠ ch '%' ∧ c ≠ ch '+' ∧ c ≠ ch ' ' := by
  decide

/-- `QueryUnescape` reads back one escaped byte. -/
theorem unescape_escapeByte (c : Byte) (t : GoString) :
    url.unescape (url.escapeByte c url.encoding.encodeQueryComponent ++ t)
        url.encoding.encodeQueryComponent =
      match url.unescape t url.encoding.encodeQueryComponent with
      | Except.ok u => Except.ok (c :: u)
      | Except.error e => Except.error e := by
  have hm : ¬ (url.encoding.encodeQueryComponent = url.encoding.encodeHost) := by decide
  by_cases hsp : c = ch ' '
  · subst hsp
    have h1 : url.escapeByte (ch ' ') url.encoding.encodeQueryComponent = [ch '+'] := by decide
    have h2 : ¬ (ch '+' = ch '%') := by decide
    rw [h1, List.singleton_append, url.unescape.eq_def]
    simp only [h2, if_false, if_true]
  · by_cases hesc : url.shouldEscape c url.encoding.encodeQueryComponent = true
    · obtain ⟨hx1, hx2, hval⟩ := escapeByte_hex c hsp hesc
      have h1 : url.escapeByte c url.encoding.encodeQueryComponent =
          [ch '%', url.upperhex (c.val / 16), url.upperhex (c.val % 16)] := by
        simp [url.escapeByte, hsp, hesc]
      rw [h1, url.unescape.eq_def]
      simp only [List.cons_append, List.nil_append, if_true, hx1, hx2,
        Bool.and_self, hm, if_false, hval]
    · have hesc' : url.shouldEscape c url.encoding.encodeQueryComponent = false := by
        simpa using hesc
      obtain ⟨hp, hplus, _⟩ := unescaped_plain c hesc'
      have h1 : url.escapeByte c url.encoding.encodeQueryComponent = [c] := by
        simp [url.escapeByte, hsp, hesc']
      rw [h1, List.singleton_append, url.unescape.eq_def]
      simp only [hp, hplus, if_false, hm, false_and]

/-- `QueryUnescape` reads back what `QueryEscape` writes. -/
theorem QueryUnescape_QueryEscape (s : GoString) :
    url.QueryUnescape (url.QueryEscape s) = Except.ok s := by
  unfold url.QueryUnescape url.QueryEscape url.escape
  induction s with
  | nil => rfl
  | cons c s ih =>
    rw [List.flatMap_cons, unescape_escapeByte, ih]

/-- `QueryEscape` writes none of the separators `&`, `=` and `;`. -/
theorem QueryEscape_clean (s : GoString) (b : Byte) (hb : b ∈ url.QueryEscape s) :
    b ≠ ch '&' ∧ b ≠ ch '=' ∧ b ≠ ch ';' := by
  unfold url.QueryEscape url.escape at hb
  obtain ⟨c, _, hc⟩ := List.mem_flatMap.mp hb
  have h := List.all_eq_true.mp (escapeByte_clean c) b hc
  simpa using h
/-- `strings.Cut` at the first separator, when the text before it has none. -/
theorem cutByte_append (sep : Byte) (a b : GoString) (h : sep ∉ a) :
    cutByte sep (a ++ sep :: b) = (a, b, true) := by
  induction a with
  | nil => simp [cutByte]
  | cons c a ih =>
    simp only [List.mem_cons, not_or] at h
    have hc : ¬ c = sep := fun e => h.1 e.symm
    rw [List.cons_append, cutByte, if_neg hc, ih h.2]

/-- `strings.Split` of a text without separator. -/
theorem splitByte_none (sep : Byte) (a : GoString) (h : sep ∉ a) : splitByte sep a = [a] := by
  induction a with
  | nil => rfl
  | cons c a ih =>
    simp only [List.mem_cons, not_or] at h
    have hc : ¬ c = sep := fun e => h.1 e.symm
    simp only [splitByte, hc, if_false, ih h.2]

/-- `strings.Split` at the first separator, when the text before it has none. -/
theorem splitByte_append (sep : Byte) (a b : GoString) (h : sep ∉ a) :
    splitByte sep (a ++ sep :: b) = a :: splitByte sep b := by
  induction a with
  | nil => simp [splitByte]
  | cons c a ih =>
    simp only [List.mem_cons, not_or] at h
    have hc : ¬ c = sep := fun e => h.1 e.symm
    rw [List.cons_append, splitByte, if_neg hc, ih h.2]

/-- `strings.Split` gives back the texts that were joined, when none of them holds the
separator. -/
theorem splitByte_intercalate (sep : Byte) (parts : List GoString) (hne : parts ≠ [])
    (h : ∀ p ∈ parts, sep ∉ p) : splitByte sep ([sep].intercalate parts) = parts := by
  induction parts with
  | nil => exact absurd rfl hne
  | cons p ps ih =>
    cases ps with
    | nil =>
      rw [intercalate_singleton]
      exact splitByte_none sep p (h p (List.mem_cons_self _ _))
    | cons q qs =>
      rw [intercalate_cons_cons, List.append_assoc, List.singleton_append,
        splitByte_append sep p _ (h p (List.mem_cons_self _ _)),
        ih (List.cons_ne_nil _ _) (fun x hx => h x (List.mem_cons_of_mem _ hx))]

/-- The bytes of a rendered parameter other than its `=` are bytes of escaped texts. -/
theorem renderParam_clean (p : GoString × GoString) :
    ch '&' ∉ url.renderParam p ∧ ch ';' ∉ url.renderParam p ∧ url.renderParam p ≠ [] := by
  have he : lit "=" = [ch '='] := by decide
  have h1 : ¬ (ch '&' = ch '=') := by decide
  have h2 : ¬ (ch ';' = ch '=') := by decide
  refine ⟨?_, ?_, ?_⟩
  · intro hm
    simp only [url.renderParam, he, List.mem_append, List.mem_singleton, h1, or_false] at hm
    rcases hm with hm | hm
    · exact (QueryEscape_clean _ _ hm).1 rfl
    · exact (QueryEscape_clean _ _ hm).1 rfl
  · intro hm
    simp only [url.renderParam, he, List.mem_append, List.mem_singleton, h2, or_false] at hm
    rcases hm with hm | hm
    · exact (QueryEscape_clean _ _ hm).2.2 rfl
    · exact (QueryEscape_clean _ _ hm).2.2 rfl
  · simp [url.renderParam, he]

/-- One turn of the loop of `ParseQuery` on a rendered parameter reads that parameter. -/
theorem parseQueryStep_renderParam (st : url.ParseState) (p : GoString × GoString) :
    url.parseQueryStep st (url.renderParam p) = { st with params := st.params ++ [p] } := by
  obtain ⟨_, hsemi, hne⟩ := renderParam_clean p
  have he : lit "=" = [ch '='] := by decide
  have hcut : cutByte (ch '=') (url.renderParam p) =
      (url.QueryEscape p.1, url.QueryEscape p.2, true) := by
    rw [url.renderParam, he, List.append_assoc, List.singleton_append]
    exact cutByte_append _ _ _ (fun hm => (QueryEscape_clean _ _ hm).2.1 rfl)
  unfold url.parseQueryStep
  simp only [hsemi, if_false, hne, hcut, QueryUnescape_QueryEscape]

/-- The loop of `ParseQuery` over rendered parameters reads them all, in their order. -/
theorem parseQuery_loop (ps : List (GoString × GoString)) (st : url.ParseState) :
    (ps.map url.renderParam).foldl url.parseQueryStep st =
      { st with params := st.params ++ ps } := by
  induction ps generalizing st with
  | nil => simp
  | cons p ps ih =>
    simp only [List.map_cons, List.foldl_cons, parseQueryStep_renderParam, ih,
      List.append_assoc, List.singleton_append]

/-- `ParseQuery` reads back, without error, the parameters of a rendered query. -/
theorem ParseQuery_renderQuery (ps : List (GoString × GoString)) :
    url.ParseQuery (url.renderQuery ps) = { params := ps, err := none } := by
  have ha : lit "&" = [ch '&'] := by decide
  cases ps with
  | nil => simp [url.ParseQuery, url.renderQuery, List.intercalate]
  | cons p ps =>
    have hne : url.renderQuery (p :: ps) ≠ [] := by
      have h1 := (renderParam_clean p).2.2
      cases ps with
      | nil => simpa [url.renderQuery, intercalate_singleton] using h1
      | cons q qs =>
        simp only [url.renderQuery, List.map_cons, intercalate_cons_cons]
        intro h
        have := congrArg List.length h
        simp only [List.length_append, List.length_nil] at this
        have hl : 0 < (url.renderParam p).length := List.length_pos.mpr h1
        omega
    unfold url.ParseQuery
    rw [if_neg hne, url.renderQuery, ha, splitByte_intercalate _ _ (by simp)]
    · rw [parseQuery_loop]; simp
    · intro x hx
      obtain ⟨q, _, rfl⟩ := List.mem_map.mp hx
      exact (renderParam_clean q).1
/-- Filtering and mapping a list, one element at a time. -/
theorem filter_map_cons {α β : Type} (p : α → Bool) (g : α → β) (a : α) (l : List α) :
    ((a :: l).filter p).map g = (if p a = true then [g a] else []) ++ (l.filter p).map g := by
  by_cases h : p a = true <;> simp [h]

/-- The parameter of a string field tagged `omitempty`. -/
theorem param_string (name s : GoString) :
    (if query.kept { name := name, omitempty := true, value := query.FieldValue.string s } = true
      then [query.param { name := name, omitempty := true, value := query.FieldValue.string s }]
      else []) = if s = [] then [] else [(name, s)] := by
  cases s <;> simp [query.kept, query.isEmptyValue, query.param, query.valueString]

/-- The parameter of an int field tagged `omitempty`. -/
theorem param_int (name : GoString) (n : Int) :
    (if query.kept { name := name, omitempty := true, value := query.FieldValue.int n } = true
      then [query.param { name := name, omitempty := true, value := query.FieldValue.int n }]
      else []) = if n = 0 then [] else [(name, Itoa n)] := by
  by_cases h : n = 0 <;> simp [query.kept, query.isEmptyValue, query.param, query.valueString, h]

/-- The parameter of a `*bool` field tagged `omitempty`. -/
theorem param_boolPtr (name : GoString) (p : Option Bool) :
    (if query.kept { name := name, omitempty := true, value := query.FieldValue.boolPtr p } = true
      then [query.param { name := name, omitempty := true, value := query.FieldValue.boolPtr p }]
      else []) =
      match p with
      | none => []
      | some b => [(name, if b then lit "true" else lit "false")] := by
  cases p <;>
    simp [query.kept, query.isEmptyValue, query.param, query.valueString, query.sprintBool]

/-- The fields of `ListOptions` in the order of their tag names. -/
theorem ListOptions_sortedFields (o : ListOptions) :
    query.sortedFields o.fields =
      [ { name := lit "channel", omitempty := true, value := query.FieldValue.string o.Channel },
        { name := lit "direction", omitempty := true,
          value := query.FieldValue.string o.Direction },
        { name := lit "embeddable", omitempty := true,
          value := query.FieldValue.boolPtr o.Embeddable },
        { name := lit "game", omitempty := true, value := query.FieldValue.string o.Game },
        { name := lit "hls", omitempty := true, value := query.FieldValue.boolPtr o.Hls },
        { name := lit "limit", omitempty := true, value := query.FieldValue.int o.Limit },
        { name := lit "live", omitempty := true, value := query.FieldValue.boolPtr o.Live },
        { name := lit "offset", omitempty := true, value := query.FieldValue.int o.Offset },
        { name := lit "period", omitempty := true, value := query.FieldValue.string o.Period } ] := by
  rfl

/-- The tag names of `ListOptions` are pairwise different. -/
theorem ListOptions_names_nodup (o : ListOptions) : (o.fields.map fun f => f.name).Nodup := by
  have h : (o.fields.map fun f => f.name) =
      [lit "game", lit "channel", lit "direction", lit "period", lit "limit", lit "offset",
        lit "embeddable", lit "hls", lit "live"] := rfl
  rw [h]
  decide

/-- The query text of a `ListOptions` value: the parameters that the spec names. -/
theorem ListOptions_encode (o : ListOptions) :
    url.Values.Encode (query.reflectValue [] o.fields) = url.renderQuery o.specParams := by
  rw [encode_fields _ (ListOptions_names_nodup o), ListOptions_sortedFields]
  simp only [filter_map_cons, param_string, param_int, param_boolPtr, List.filter_nil,
    List.map_nil, List.append_nil]
  simp only [ListOptions.specParams, List.append_assoc]
/-- The path that a method with a `*ListOptions` hands on, for a non-nil `opt`. -/
theorem withListOptions_some (rel : GoString) (o : ListOptions) :
    ChannelsMethod.withListOptions rel (some o) =
      Except.ok (rel ++ lit "?" ++ url.renderQuery o.specParams) := by
  simp only [ChannelsMethod.withListOptions, query.Values, ListOptions_encode]

/-- The parameters that the spec names for a `ListOptions` value: a parameter is in the
list if and only if it is one of the nine, its field is not at its zero or absent value,
and its value is the value of the field. -/
theorem specParams_mem (o : ListOptions) (key value : GoString) :
    (key, value) ∈ o.specParams ↔
      (key = lit "channel" ∧ o.Channel ≠ [] ∧ value = o.Channel) ∨
      (key = lit "direction" ∧ o.Direction ≠ [] ∧ value = o.Direction) ∨
      (key = lit "embeddable" ∧ ∃ b, o.Embeddable = some b ∧ value = query.sprintBool b) ∨
      (key = lit "game" ∧ o.Game ≠ [] ∧ value = o.Game) ∨
      (key = lit "hls" ∧ ∃ b, o.Hls = some b ∧ value = query.sprintBool b) ∨
      (key = lit "limit" ∧ o.Limit ≠ 0 ∧ value = Itoa o.Limit) ∨
      (key = lit "live" ∧ ∃ b, o.Live = some b ∧ value = query.sprintBool b) ∨
      (key = lit "offset" ∧ o.Offset ≠ 0 ∧ value = Itoa o.Offset) ∨
      (key = lit "period" ∧ o.Period ≠ [] ∧ value = o.Period) := by
  have hs : ∀ (n s : GoString), (key, value) ∈ (if s = [] then [] else [(n, s)]) ↔
      (key = n ∧ s ≠ [] ∧ value = s) := by
    intro n s; by_cases h : s = [] <;> simp [h]
  have hi : ∀ (n : GoString) (i : Int), (key, value) ∈ (if i = 0 then [] else [(n, Itoa i)]) ↔
      (key = n ∧ i ≠ 0 ∧ value = Itoa i) := by
    intro n i; by_cases h : i = 0 <;> simp [h]
  have hb : ∀ (n : GoString) (p : Option Bool),
      (key, value) ∈ (match p with
        | none => ([] : List (GoString × GoString))
        | some b => [(n, if b then lit "true" else lit "false")]) ↔
      (key = n ∧ ∃ b, p = some b ∧ value = query.sprintBool b) := by
    intro n p; cases p <;> simp only [query.sprintBool, List.mem_singleton, List.not_mem_nil, Prod.mk.injEq, Option.some.injEq, exists_eq_left', false_iff, not_and, not_exists, reduceCtorEq, false_and, imp_false, not_false_eq_true, implies_true]
  simp only [ListOptions.specParams, List.mem_append, hs, hi, hb, or_assoc]

/-- **C6.** For every `ListOptions` value, the text that `Videos`, `Follows`, `Panels`
and `subscriptions` append after "?" is the query that holds, for each of `game`,
`channel`, `direction`, `period`, `limit`, `offset`, `embeddable`, `hls` and `live`, a
parameter if and only if the field is not at its zero or absent value, with the value of
the field; `url.ParseQuery` reads exactly these parameters back from it. With only
`Limit = 10` and `Offset = 5` set the text is "limit=10&offset=5". -/
theorem list_options_query (client : Doer) (c : Client) (name : GoString) (o : ListOptions)
    (decodeV : Decoder VideosS) (decodeF : Decoder FollowsS) (decodeP : Decoder (List PanelS))
    (decodeS : Decoder SubsS) :
    ChannelsMethod.Videos client decodeV c name (some o) =
      Client.Get client decodeV c
        (lit "channels/" ++ name ++ lit "/videos" ++ lit "?" ++ url.renderQuery o.specParams)
        (some {}) ∧
    ChannelsMethod.Follows client decodeF c name (some o) =
      Client.Get client decodeF c
        (lit "channels/" ++ name ++ lit "/follows" ++ lit "?" ++ url.renderQuery o.specParams)
        (some {}) ∧
    ChannelsMethod.Panels client decodeP c name (some o) =
      Client.GetAPI client decodeP c
        (lit "channels/" ++ name ++ lit "/panels" ++ lit "?" ++ url.renderQuery o.specParams)
        (some []) ∧
    ChannelsMethod.subscriptions client decodeS c name (some o) =
      Client.Get client decodeS c
        (lit "channels/" ++ name ++ lit "/subscriptions" ++ lit "?" ++
          url.renderQuery o.specParams)
        (some {}) ∧
    url.ParseQuery (url.renderQuery o.specParams) = { params := o.specParams, err := none } ∧
    (∀ key value, (key, value) ∈ o.specParams ↔
      (key = lit "channel" ∧ o.Channel ≠ [] ∧ value = o.Channel) ∨
      (key = lit "direction" ∧ o.Direction ≠ [] ∧ value = o.Direction) ∨
      (key = lit "embeddable" ∧ ∃ b, o.Embeddable = some b ∧ value = query.sprintBool b) ∨
      (key = lit "game" ∧ o.Game ≠ [] ∧ value = o.Game) ∨
      (key = lit "hls" ∧ ∃ b, o.Hls = some b ∧ value = query.sprintBool b) ∨
      (key = lit "limit" ∧ o.Limit ≠ 0 ∧ value = Itoa o.Limit) ∨
      (key = lit "live" ∧ ∃ b, o.Live = some b ∧ value = query.sprintBool b) ∨
      (key = lit "offset" ∧ o.Offset ≠ 0 ∧ value = Itoa o.Offset) ∨
      (key = lit "period" ∧ o.Period ≠ [] ∧ value = o.Period)) ∧
    url.renderQuery ({ Limit := 10, Offset := 5 } : ListOptions).specParams =
      lit "limit=10&offset=5" := by
  refine ⟨?_, ?_, ?_, ?_, ParseQuery_renderQuery _, specParams_mem o, by decide⟩
  · simp only [ChannelsMethod.Videos, withListOptions_some]
  · simp only [ChannelsMethod.Follows, withListOptions_some]
  · simp only [ChannelsMethod.Panels, withListOptions_some]
  · simp only [ChannelsMethod.subscriptions, withListOptions_some]

/-- **C5.** For every name, `ChannelsMethod.Channel(name)` hands to `Client.Get` the path
"channel" when the name is empty and "channels/" followed by the name otherwise; so
`Channel("somebody")` asks for "channels/somebody". -/
theorem channel_path (client : Doer) (decode : Decoder ChannelS) (c : Client)
    (name : GoString) :
    ChannelsMethod.Channel client decode c name =
      Client.Get client decode c (if name = [] then lit "channel" else lit "channels/" ++ name)
        (some {}) ∧
    ChannelsMethod.Channel client decode c [] =
      Client.Get client decode c (lit "channel") (some {}) ∧
    ChannelsMethod.Channel client decode c (lit "somebody") =
      Client.Get client decode c (lit "channels/somebody") (some {}) := by
  refine ⟨?_, rfl, rfl⟩
  by_cases h : name = [] <;> simp [ChannelsMethod.Channel, ChannelsMethod.channelRel, h]

/-- The parameter of a bool field without `omitempty`: it is always written. -/
theorem param_bool (name : GoString) (b : Bool) :
    (if query.kept { name := name, omitempty := false, value := query.FieldValue.bool b } = true
      then [query.param { name := name, omitempty := false, value := query.FieldValue.bool b }]
      else []) = [(name, query.sprintBool b)] := by
  simp [query.kept, query.param, query.valueString]

/-- The query text that `M3U8` builds from the overridden options. -/
theorem m3u8_encode (opt : M3U8Options) (random : Nat) :
    url.Values.Encode (query.reflectValue [] (ChannelsMethod.m3u8Override opt random).fields) =
      url.renderQuery (M3U8Options.specParams opt.Token opt.Sig random) := by
  have hnd : ((ChannelsMethod.m3u8Override opt random).fields.map fun f => f.name).Nodup := by
    have h : ((ChannelsMethod.m3u8Override opt random).fields.map fun f => f.name) =
        [lit "token", lit "sig", lit "player", lit "$allow_audio_only", lit "allow_source",
          lit "type", lit "p"] := rfl
    rw [h]
    decide
  have hsort : query.sortedFields (ChannelsMethod.m3u8Override opt random).fields =
      [ { name := lit "$allow_audio_only", omitempty := false,
          value := query.FieldValue.bool true },
        { name := lit "allow_source", omitempty := false, value := query.FieldValue.bool true },
        { name := lit "p", omitempty := true, value := query.FieldValue.int (random : Int) },
        { name := lit "player", omitempty := true,
          value := query.FieldValue.string (lit "twitchweb") },
        { name := lit "sig", omitempty := true, value := query.FieldValue.string opt.Sig },
        { name := lit "token", omitempty := true, value := query.FieldValue.string opt.Token },
        { name := lit "type", omitempty := true,
          value := query.FieldValue.string (lit "any") } ] := by
    rfl
  have h1 : ¬ (lit "twitchweb" = []) := by decide
  have h2 : ¬ (lit "any" = []) := by decide
  have h3 : query.sprintBool true = lit "true" := rfl
  rw [encode_fields _ hnd, hsort]
  simp only [filter_map_cons, param_string, param_int, param_bool, List.filter_nil,
    List.map_nil, List.append_nil, h1, h2, h3, if_false]
  simp only [M3U8Options.specParams, List.append_assoc, List.singleton_append, List.cons_append,
    List.nil_append]

/-- **C4.** For every channel name and every non-nil `M3U8Options` value, whatever the
caller put in `AllowAudioOnly`, `AllowSource`, `Type` and `Player`: the query that
`ChannelsMethod.M3U8` appends to the path holds the parameters `$allow_audio_only=true`,
`allow_source=true`, `player=twitchweb` and `type=any` and no other value for these four
names, it depends on the caller's options through `Token` and `Sig` only, and these two
are passed as they are (left out when empty). `url.ParseQuery` reads exactly these
parameters back from the query. -/
theorem m3u8_override (client : Doer) (c : Client) (name : GoString) (opt : M3U8Options)
    (random : Nat) :
    ChannelsMethod.M3U8 client c name (some opt) random =
      (Client.GetUsher client c
        (lit "channel/hls/" ++ name ++ lit ".m3u8" ++ lit "?" ++
          url.renderQuery (M3U8Options.specParams opt.Token opt.Sig random)),
       some (ChannelsMethod.m3u8Override opt random)) ∧
    url.ParseQuery (url.renderQuery (M3U8Options.specParams opt.Token opt.Sig random)) =
      { params := M3U8Options.specParams opt.Token opt.Sig random, err := none } ∧
    (∀ value, (lit "$allow_audio_only", value) ∈ M3U8Options.specParams opt.Token opt.Sig random ↔
      value = lit "true") ∧
    (∀ value, (lit "allow_source", value) ∈ M3U8Options.specParams opt.Token opt.Sig random ↔
      value = lit "true") ∧
    (∀ value, (lit "type", value) ∈ M3U8Options.specParams opt.Token opt.Sig random ↔
      value = lit "any") ∧
    (∀ value, (lit "player", value) ∈ M3U8Options.specParams opt.Token opt.Sig random ↔
      value = lit "twitchweb") ∧
    (∀ value, (lit "token", value) ∈ M3U8Options.specParams opt.Token opt.Sig random ↔
      opt.Token ≠ [] ∧ value = opt.Token) ∧
    (∀ value, (lit "sig", value) ∈ M3U8Options.specParams opt.Token opt.Sig random ↔
      opt.Sig ≠ [] ∧ value = opt.Sig) := by
  have k1 : ¬ (lit "$allow_audio_only" = lit "allow_source") := by decide
  have k2 : ¬ (lit "$allow_audio_only" = lit "p") := by decide
  have k3 : ¬ (lit "$allow_audio_only" = lit "player") := by decide
  have k4 : ¬ (lit "$allow_audio_only" = lit "sig") := by decide
  have k5 : ¬ (lit "$allow_audio_only" = lit "token") := by decide
  have k6 : ¬ (lit "$allow_audio_only" = lit "type") := by decide
  have k7 : ¬ (lit "allow_source" = lit "$allow_audio_only") := by decide
  have k8 : ¬ (lit "allow_source" = lit "p") := by decide
  have k9 : ¬ (lit "allow_source" = lit "player") := by decide
  have k10 : ¬ (lit "allow_source" = lit "sig") := by decide
  have k11 : ¬ (lit "allow_source" = lit "token") := by decide
  have k12 : ¬ (lit "allow_source" = lit "type") := by decide
  have k13 : ¬ (lit "type" = lit "$allow_audio_only") := by decide
  have k14 : ¬ (lit "type" = lit "allow_source") := by decide
  have k15 : ¬ (lit "type" = lit "p") := by decide
  have k16 : ¬ (lit "type" = lit "player") := by decide
  have k17 : ¬ (lit "type" = lit "sig") := by decide
  have k18 : ¬ (lit "type" = lit "token") := by decide
  have k19 : ¬ (lit "player" = lit "$allow_audio_only") := by decide
  have k20 : ¬ (lit "player" = lit "allow_source") := by decide
  have k21 : ¬ (lit "player" = lit "p") := by decide
  have k22 : ¬ (lit "player" = lit "sig") := by decide
  have k23 : ¬ (lit "player" = lit "token") := by decide
  have k24 : ¬ (lit "player" = lit "type") := by decide
  have k25 : ¬ (lit "token" = lit "$allow_audio_only") := by decide
  have k26 : ¬ (lit "token" = lit "allow_source") := by decide
  have k27 : ¬ (lit "token" = lit "p") := by decide
  have k28 : ¬ (lit "token" = lit "player") := by decide
  have k29 : ¬ (lit "token" = lit "sig") := by decide
  have k30 : ¬ (lit "token" = lit "type") := by decide
  have k31 : ¬ (lit "sig" = lit "$allow_audio_only") := by decide
  have k32 : ¬ (lit "sig" = lit "allow_source") := by decide
  have k33 : ¬ (lit "sig" = lit "p") := by decide
  have k34 : ¬ (lit "sig" = lit "player") := by decide
  have k35 : ¬ (lit "sig" = lit "token") := by decide
  have k36 : ¬ (lit "sig" = lit "type") := by decide
  refine ⟨?_, ParseQuery_renderQuery _, ?_, ?_, ?_, ?_, ?_, ?_⟩
  · simp only [ChannelsMethod.M3U8, ChannelsMethod.m3u8Rel, query.Values, m3u8_encode,
      Option.map_some']
  all_goals
    intro value
    by_cases hr : (random : Int) = 0 <;> by_cases hs : opt.Sig = [] <;>
      by_cases ht : opt.Token = [] <;>
      simp [M3U8Options.specParams, hr, hs, ht, k1, k2, k3, k4, k5, k6, k7, k8, k9, k10, k11,
        k12, k13, k14, k15, k16, k17, k18, k19, k20, k21, k22, k23, k24, k25, k26, k27, k28,
        k29, k30, k31, k32, k33, k34, k35, k36]

set_option maxRecDepth 100000 in
/-- The override law on the options of the spec's example (`AllowAudioOnly=false`,
`AllowSource=false`, `Type="live"`, `Player="foo"`): the query built by **C4**'s method. -/
theorem m3u8_override_sample :
    ChannelsMethod.m3u8Rel (lit "foo") (some contraryOptions) 7 =
      Except.ok (lit ("channel/hls/foo.m3u8?%24allow_audio_only=true&allow_source=true&p=7" ++
        "&player=twitchweb&sig=sig&token=tok&type=any")) := by
  rfl

/-! ## Properties of URL resolution on plain paths -/

set_option maxRecDepth 100000 in
/-- Why a plain segment is not a dot-segment: `url.ResolveReference` removes the
dot-segments of a path, so for the name ".." the request of `Panels` goes to
https://api.twitch.tv/api/panels, and for the name "." to
https://api.twitch.tv/api/channels/panels. -/
theorem dot_segment_name :
    requestLine (ChannelsMethod.Panels (fixedClient 200 (lit "[]")) keepDecoder
        (NewClient emptyEnviron) (lit "..") none).sent =
      some (lit "GET", lit "https://api.twitch.tv/api/panels") ∧
    requestLine (ChannelsMethod.Panels (fixedClient 200 (lit "[]")) keepDecoder
        (NewClient emptyEnviron) (lit ".") none).sent =
      some (lit "GET", lit "https://api.twitch.tv/api/channels/panels") := by
  decide

/-! ## Decode failures -/

end Twitch
